import Mathlib

/-!
Verification of the next-gen-ui agent pipeline: a shallow embedding of the
routing, tool, serialization and orchestration logic of the Python sources
(`router_agent.py`, `ui_agent.py`, `answer_agent.py`, `graph.py`,
`dynamic_ui_agent.py`, `dynamic_tool_generator.py`, `components.py`),
together with theorems settling the specification's claims about them.
-/

namespace NextGenUI

/-! ### Python string primitives

Models of the Python string operations used by the sources: `in`
(substring containment), `.lower()`, `.strip()`. -/

/-- Contiguous-sublist test on character lists. -/
def charsIn (needle : List Char) : List Char → Bool
  | [] => needle.isPrefixOf []
  | c :: t => needle.isPrefixOf (c :: t) || charsIn needle t

/-- Python's `needle in hay` substring test. -/
def pyIn (needle hay : String) : Bool :=
  charsIn needle.toList hay.toList

/-- ASCII lower-casing of one character, as Python's `str.lower()` does on
the ASCII range (the only range the sources exercise). -/
def pyLowerChar (c : Char) : Char :=
  if 'A' ≤ c && c ≤ 'Z' then Char.ofNat (c.toNat + 32) else c

/-- Python's `str.lower()` (ASCII behaviour, which is all the sources use). -/
def pyLower (s : String) : String :=
  ⟨s.toList.map pyLowerChar⟩

/-- Python whitespace characters stripped by `str.strip()`. -/
def pyIsSpace (c : Char) : Bool :=
  c = ' ' || c = '\t' || c = '\n' || c = '\r' || c = '\x0b' || c = '\x0c'

/-- Python's `str.strip()`. -/
def pyStrip (s : String) : String :=
  ⟨((s.toList.dropWhile pyIsSpace).reverse.dropWhile pyIsSpace).reverse⟩

/-! ### Rule-based router (`router_agent.py`, `_rule_based_routing`) -/

/-- Weather keywords checked first by `_rule_based_routing`. -/
def weatherWords : List String := ["weather", "temperature", "humidity", "wind"]

/-- Chart/visualization keywords (`chart_keywords` in the source). -/
def chartKeywords : List String :=
  ["chart", "graph", "plot", "visualization", "bar", "line", "pie", "statistics"]

/-- Table/data display keywords (`table_keywords` in the source). -/
def tableKeywords : List String :=
  ["table", "list", "display", "show", "data", "users", "records", "rows", "columns"]

/-- Information/content keywords (`info_keywords` in the source). -/
def infoKeywords : List String :=
  ["explain", "information", "about", "description", "what is", "tell me"]

/-- `RouterAgent._rule_based_routing(query, answer)`: keyword scan over the
lowercased `f"{query} {answer}"`, in the source's order. -/
def ruleBasedRouting (query answer : String) : Option String :=
  let combined := pyLower (query ++ " " ++ answer)
  if weatherWords.any (fun w => pyIn w combined) then some "data_display"
  else if chartKeywords.any (fun w => pyIn w combined) then some "data_visualization"
  else if tableKeywords.any (fun w => pyIn w combined) then some "data_display"
  else if infoKeywords.any (fun w => pyIn w combined) then some "content"
  else none

/-! ### Model-based router (`router_agent.py`, `_llm_based_routing`) -/

/-- The keys of `RouterAgent.categories`, in insertion order. -/
def categoryKeys : List String :=
  ["data_display", "data_visualization", "content", "general"]

/-- `RouterAgent._llm_based_routing`, with the model call abstracted as its
outcome: `none` models the `llm.invoke` call raising (caught by the
source's `except` clause), `some r` models a reply with content `r`.
Mirrors the source: strip+lower, exact key match, then the first key `cat`
with `cat in category or category in cat`, else the `"content"` fallback. -/
def llmBasedRouting (resp : Option String) : String :=
  match resp with
  | none => "content"
  | some r =>
    let category := pyLower (pyStrip r)
    if categoryKeys.contains category then category
    else
      match categoryKeys.find? (fun cat => pyIn cat category || pyIn category cat) with
      | some cat => cat
      | none => "content"

/-- `RouterAgent.route_query`: rule-based first, then the model-based
fallback, with a final `except`-clause default of `"content"`. The
model-based step is abstracted as in `llmBasedRouting`. -/
def routeQuery (resp : Option String) (query answer : String) : String :=
  match ruleBasedRouting query answer with
  | some category => category
  | none => llmBasedRouting resp

/-! ### Decimal numbers

Python floats in the sources are only ever constructed from decimal
literals, passed through, and re-serialized — no arithmetic is performed on
them — so they are embedded as exact decimals. -/

/-- The character for decimal digit `n` (`n < 10`). -/
def digitChar (n : Nat) : Char := Char.ofNat (48 + n)

/-- Numeric value of a decimal digit character. -/
def digitVal (c : Char) : Nat := c.toNat - 48

/-- Big-endian digit characters read as a natural number (the way a parser
accumulates digits left to right). -/
def digitsToNat (cs : List Char) : Nat :=
  cs.foldl (fun acc c => 10 * acc + digitVal c) 0

/-- Little-endian digits of `n`, with `fuel` bounding the recursion
(`fuel ≥ n` suffices). -/
def natDigitsRev (fuel : Nat) (n : Nat) : List Nat :=
  match fuel with
  | 0 => []
  | fuel + 1 => if n = 0 then [] else n % 10 :: natDigitsRev fuel (n / 10)

/-- Decimal digit characters of `n`, most significant first, as Python's
`str` renders a non-negative integer. -/
def natDigits (n : Nat) : List Char :=
  if n = 0 then ['0'] else ((natDigitsRev n n).map digitChar).reverse

/-- Decimal digit characters of an integer, as Python's `str`. -/
def intDigits (n : Int) : List Char :=
  if n < 0 then '-' :: natDigits n.natAbs else natDigits n.natAbs

/-- Exact decimal surrogate for a Python float: the value `m / 10 ^ e`.
The embedding invariant for floats that exist at runtime is `1 ≤ e`
(Python's `repr` of a float always shows at least one fractional digit
for the magnitudes this system produces). -/
structure Dec where
  m : Int
  e : Nat
  deriving DecidableEq

/-- Zero-pad a digit string on the left to width `e`. -/
def padDigits (e : Nat) (cs : List Char) : List Char :=
  List.replicate (e - cs.length) '0' ++ cs

/-- Rendering of a `Dec` as Python's `repr`/`json.dumps` renders the float:
integer part, `'.'`, then exactly `e` fractional digits. -/
def decDigits (d : Dec) : List Char :=
  let a := d.m.natAbs
  (if d.m < 0 then ['-'] else []) ++
    natDigits (a / 10 ^ d.e) ++ '.' :: padDigits d.e (natDigits (a % 10 ^ d.e))

/-- Python's `float(int_value)`. -/
def floatOfInt (n : Int) : Dec := ⟨n * 10, 1⟩

/-- Python's `int(float_value)`: truncation toward zero. -/
def Dec.truncInt (d : Dec) : Int :=
  if 0 ≤ d.m then ((d.m.toNat / 10 ^ d.e : Nat) : Int)
  else -(((-d.m).toNat / 10 ^ d.e : Nat) : Int)

/-! ### `_parse_number` (`ui_agent.py`, `WeatherCardTool`)

The tool coerces model-supplied values.  A Python value reaching
`_parse_number` is `None`, an `int`, a `float`, or a string; the regex
`-?\d+\.?\d*` is applied to the string form. -/

/-- A Python value as passed into `_parse_number`. -/
inductive PyValue where
  | none
  | int (n : Int)
  | float (d : Dec)
  | str (s : String)
  deriving DecidableEq

/-- A Python number produced by `_parse_number`. -/
inductive PyNum where
  | int (n : Int)
  | float (d : Dec)
  deriving DecidableEq

/-- Take the leading run of decimal digit characters. -/
def takeDigits : List Char → List Char × List Char
  | [] => ([], [])
  | c :: t =>
    if c.isDigit then
      let p := takeDigits t
      (c :: p.1, p.2)
    else ([], c :: t)

/-- One attempted match of the regex `-?\d+\.?\d*` at the head of the
input: optional sign, one or more digits, optionally a dot with zero or
more further digits (all greedy).  Returns
`(negative, integer digits, fractional digits, rest)`. -/
def matchNumAt (cs : List Char) : Option (Bool × List Char × List Char × List Char) :=
  let core : List Char → Option (List Char × List Char × List Char) := fun body =>
    match takeDigits body with
    | ([], _) => Option.none
    | (ds, r) =>
      match r with
      | '.' :: r2 =>
        let p := takeDigits r2
        some (ds, p.1, p.2)
      | _ => some (ds, [], r)
  match cs with
  | [] => Option.none
  | '-' :: t => (core t).map (fun p => (true, p))
  | t => (core t).map (fun p => (false, p))

/-- `re.findall(r'-?\d+\.?\d*', s)[0]`: the leftmost match of the numeric
regex, scanning forward one character at a time. -/
def findNumber : List Char → Option (Bool × List Char × List Char × List Char)
  | [] => Option.none
  | c :: t =>
    match matchNumAt (c :: t) with
    | some m => some m
    | Option.none => findNumber t

/-- Python's `float()` applied to a regex match: fractional digits give the
exponent; an absent or empty fraction yields a whole float (`e = 1`). -/
def decOfMatch (neg : Bool) (intDs fracDs : List Char) : Dec :=
  let sign : Int := if neg then -1 else 1
  if fracDs.isEmpty then ⟨sign * (digitsToNat intDs * 10 : Nat), 1⟩
  else ⟨sign * ((digitsToNat intDs * 10 ^ fracDs.length + digitsToNat fracDs : Nat)), fracDs.length⟩

/-- `WeatherCardTool._parse_number(value, is_int)`: `None` passes through;
`int`/`float` inputs are converted directly; strings are searched for the
first `-?\d+\.?\d*` match and the match converted; no match yields `None`.
Written so that an unparseable input returns `Option.none` — the function
never raises. -/
def parseNumberPy (v : PyValue) (isInt : Bool) : Option PyNum :=
  match v with
  | .none => Option.none
  | .int n => some (if isInt then .int n else .float (floatOfInt n))
  | .float d => some (if isInt then .int d.truncInt else .float d)
  | .str s =>
    match findNumber s.toList with
    | some (neg, ds, fs, _) =>
      let d := decOfMatch neg ds fs
      some (if isInt then .int d.truncInt else .float d)
    | Option.none => Option.none

/-! ### JSON values

Modelled from the spec: the Python `json` standard library used by the
sources (`json.dumps` / `json.loads`) is an external collaborator, not
repository code; it is embedded here as an algebraic JSON type with a
printer matching `json.dumps`'s default separators and escapes and a
parser for the grammar `json.loads` accepts on the values this system
produces (no exponent literals, `ensure_ascii=False` escaping). -/

/-- Left brace character (written numerically throughout). -/
def lbrace : Char := Char.ofNat 123

/-- Right brace character (written numerically throughout). -/
def rbrace : Char := Char.ofNat 125

mutual
/-- A JSON value: Python `None`/`bool`/`int`/`float`/`str`/`list`/`dict`.
Objects are insertion-ordered key/value sequences, matching Python dicts. -/
inductive Json where
  | null
  | bool (b : Bool)
  | int (n : Int)
  | float (d : Dec)
  | str (s : String)
  | arr (items : JArr)
  | obj (fields : JObj)

/-- A JSON array, as its own inductive so that mutual recursion and
induction over nested values stay structural. -/
inductive JArr where
  | nil
  | cons (hd : Json) (tl : JArr)

/-- A JSON object: ordered key/value fields. -/
inductive JObj where
  | nil
  | cons (key : String) (val : Json) (tl : JObj)
end

/-- Lowercase hex digit character for `n < 16`. -/
def hexChar (n : Nat) : Char := if n < 10 then digitChar n else Char.ofNat (87 + n)

/-- `json.dumps` escaping of one character: the named two-character escapes,
`\u00XX` for remaining control characters, all else verbatim. -/
def escapeChar (c : Char) : List Char :=
  if c = '"' then ['\\', '"']
  else if c = '\\' then ['\\', '\\']
  else if c = '\n' then ['\\', 'n']
  else if c = '\t' then ['\\', 't']
  else if c = '\r' then ['\\', 'r']
  else if c = '\x08' then ['\\', 'b']
  else if c = '\x0c' then ['\\', 'f']
  else if c.toNat < 32 then ['\\', 'u', '0', '0', hexChar (c.toNat / 16), hexChar (c.toNat % 16)]
  else [c]

/-- Escape a whole character sequence. -/
def escapeChars (cs : List Char) : List Char := (cs.map escapeChar).flatten

/-- A JSON string literal: quote, escaped body, quote. -/
def strQuote (s : String) : List Char := '"' :: (escapeChars s.toList ++ ['"'])

mutual
/-- `json.dumps` with its default separators `", "` and `": "`. -/
def dumpJson : Json → List Char
  | .null => "null".data
  | .bool true => "true".data
  | .bool false => "false".data
  | .int n => intDigits n
  | .float d => decDigits d
  | .str s => strQuote s
  | .arr items => '[' :: dumpArr items
  | .obj fields => lbrace :: dumpObj fields

/-- Array items after the opening bracket. -/
def dumpArr : JArr → List Char
  | .nil => [']']
  | .cons h t => dumpJson h ++ dumpArrSep t

/-- Array items each preceded by `", "`, then the closing bracket. -/
def dumpArrSep : JArr → List Char
  | .nil => [']']
  | .cons h t => ',' :: ' ' :: (dumpJson h ++ dumpArrSep t)

/-- Object fields after the opening brace. -/
def dumpObj : JObj → List Char
  | .nil => [rbrace]
  | .cons k v t => strQuote k ++ ':' :: ' ' :: (dumpJson v ++ dumpObjSep t)

/-- Object fields each preceded by `", "`, then the closing brace. -/
def dumpObjSep : JObj → List Char
  | .nil => [rbrace]
  | .cons k v t => ',' :: ' ' :: (strQuote k ++ ':' :: ' ' :: (dumpJson v ++ dumpObjSep t))
end

/-- `json.dumps` as a string. -/
def Json.dumps (j : Json) : String := ⟨dumpJson j⟩

/-- JSON whitespace accepted between tokens. -/
def jsonWs (c : Char) : Bool := c = ' ' || c = '\t' || c = '\n' || c = '\r'

/-- Skip JSON whitespace. -/
def skipWs (cs : List Char) : List Char := cs.dropWhile jsonWs

/-- Hexadecimal digit value. -/
def hexVal (c : Char) : Option Nat :=
  if '0' ≤ c && c ≤ '9' then some (c.toNat - 48)
  else if 'a' ≤ c && c ≤ 'f' then some (c.toNat - 87)
  else if 'A' ≤ c && c ≤ 'F' then some (c.toNat - 55)
  else Option.none

/-- The named single-character escapes of JSON. -/
def unescape (e : Char) : Option Char :=
  if e = '"' then some '"'
  else if e = '\\' then some '\\'
  else if e = '/' then some '/'
  else if e = 'n' then some '\n'
  else if e = 't' then some '\t'
  else if e = 'r' then some '\r'
  else if e = 'b' then some '\x08'
  else if e = 'f' then some '\x0c'
  else Option.none

/-- Parse a JSON string body after the opening quote, returning the decoded
characters and the input after the closing quote. -/
def parseStringBody : (cs : List Char) → Option (List Char × List Char)
  | [] => Option.none
  | c :: t =>
    if c = '"' then some ([], t)
    else if c = '\\' then
      match t with
      | [] => Option.none
      | e :: t2 =>
        if e = 'u' then
          match t2 with
          | h1 :: h2 :: h3 :: h4 :: t6 =>
            match hexVal h1, hexVal h2, hexVal h3, hexVal h4 with
            | some a, some b, some c2, some d2 =>
              (parseStringBody t6).map
                (fun p => (Char.ofNat (((a * 16 + b) * 16 + c2) * 16 + d2) :: p.1, p.2))
            | _, _, _, _ => Option.none
          | _ => Option.none
        else
          match unescape e with
          | some u => (parseStringBody t2).map (fun p => (u :: p.1, p.2))
          | Option.none => Option.none
    else if c.toNat < 32 then Option.none
    else (parseStringBody t).map (fun p => (c :: p.1, p.2))

/-- Negate a parsed numeric value (after a leading `'-'`). -/
def negJson : Json → Json
  | .int n => .int (-n)
  | .float d => .float ⟨-d.m, d.e⟩
  | j => j

/-- Parse an unsigned JSON number: digits, optionally a dot and at least
one further digit.  The fractional digit count is kept in the `Dec`. -/
def parseNumCore (cs : List Char) : Option (Json × List Char) :=
  let p := takeDigits cs
  if p.1 = [] then Option.none
  else
    match p.2 with
    | '.' :: r2 =>
      let q := takeDigits r2
      if q.1 = [] then Option.none
      else
        some (.float ⟨(digitsToNat p.1 * 10 ^ q.1.length + digitsToNat q.1 : Nat), q.1.length⟩,
          q.2)
    | _ => some (.int (digitsToNat p.1 : Nat), p.2)

/-- Parse a JSON number with optional leading minus. -/
def parseNum (cs : List Char) : Option (Json × List Char) :=
  match cs with
  | '-' :: t => (parseNumCore t).map (fun p => (negJson p.1, p.2))
  | t => parseNumCore t

/-- True when the input cannot extend a just-parsed number: empty, or a
character that is neither a digit nor a dot (every separator and closing
token of the JSON grammar qualifies). -/
def numBoundary : List Char → Bool
  | [] => true
  | c :: _ => !c.isDigit && c ≠ '.'

mutual
/-- Fuel-indexed parser for one JSON value, mirroring `json.loads`'s
recursive-descent on the subset of the grammar this system emits. -/
def parseValueF : Nat → List Char → Option (Json × List Char)
  | 0, _ => Option.none
  | fuel + 1, cs =>
    match skipWs cs with
    | [] => Option.none
    | 'n' :: 'u' :: 'l' :: 'l' :: r => some (.null, r)
    | 't' :: 'r' :: 'u' :: 'e' :: r => some (.bool true, r)
    | 'f' :: 'a' :: 'l' :: 's' :: 'e' :: r => some (.bool false, r)
    | '"' :: t => (parseStringBody t).map (fun p => (.str ⟨p.1⟩, p.2))
    | '[' :: t =>
      match skipWs t with
      | ']' :: r => some (.arr .nil, r)
      | t2 => (parseArrF fuel t2).map (fun p => (.arr p.1, p.2))
    | c :: t =>
      if c = lbrace then
        match skipWs t with
        | c2 :: r =>
          if c2 = rbrace then some (.obj .nil, r)
          else (parseObjF fuel (c2 :: r)).map (fun p => (.obj p.1, p.2))
        | [] => Option.none
      else parseNum (c :: t)

/-- Parse the non-empty items of an array, up to and including `']'`. -/
def parseArrF : Nat → List Char → Option (JArr × List Char)
  | 0, _ => Option.none
  | fuel + 1, cs =>
    match parseValueF fuel cs with
    | Option.none => Option.none
    | some (j, rest) =>
      match skipWs rest with
      | ',' :: r => (parseArrF fuel r).map (fun p => (.cons j p.1, p.2))
      | ']' :: r => some (.cons j .nil, r)
      | _ => Option.none

/-- Parse the non-empty fields of an object, up to and including the
closing brace. -/
def parseObjF : Nat → List Char → Option (JObj × List Char)
  | 0, _ => Option.none
  | fuel + 1, cs =>
    match skipWs cs with
    | '"' :: t =>
      match parseStringBody t with
      | Option.none => Option.none
      | some (k, rest) =>
        match skipWs rest with
        | ':' :: r =>
          match parseValueF fuel r with
          | Option.none => Option.none
          | some (v, rest2) =>
            match skipWs rest2 with
            | ',' :: r2 => (parseObjF fuel r2).map (fun p => (.cons ⟨k⟩ v p.1, p.2))
            | c2 :: r2 => if c2 = rbrace then some (.cons ⟨k⟩ v .nil, r2) else Option.none
            | [] => Option.none
        | _ => Option.none
    | _ => Option.none
end

/-- `json.loads`: parse one value and require only whitespace after it. -/
def Json.parse (s : String) : Option Json :=
  match parseValueF (s.length + 1) s.toList with
  | some (j, rest) => if skipWs rest = [] then some j else Option.none
  | Option.none => Option.none

mutual
/-- Fuel needed by `parseValueF` to parse this value's printed form. -/
def jweight : Json → Nat
  | .arr items => 1 + aweight items
  | .obj fields => 1 + oweight fields
  | _ => 1

/-- Fuel needed by `parseArrF` for these items. -/
def aweight : JArr → Nat
  | .nil => 0
  | .cons h t => 1 + max (jweight h) (aweight t)

/-- Fuel needed by `parseObjF` for these fields. -/
def oweight : JObj → Nat
  | .nil => 0
  | .cons _ v t => 1 + max (jweight v) (oweight t)
end

mutual
/-- The embedding invariant of runtime Python values: every float shows at
least one fractional digit. -/
def jwf : Json → Bool
  | .float d => decide (1 ≤ d.e)
  | .arr items => awf items
  | .obj fields => owf fields
  | _ => true

/-- `jwf` over array items. -/
def awf : JArr → Bool
  | .nil => true
  | .cons h t => jwf h && awf t

/-- `jwf` over object fields. -/
def owf : JObj → Bool
  | .nil => true
  | .cons _ v t => jwf v && owf t
end

/-! ### Component schemas (`components.py`)

Pydantic models become structures; `model_dump()` becomes an explicit map
to `Json`, with fields in declaration order (pydantic/dict insertion
order). -/

/-- `ChartType` enum. -/
inductive ChartType where
  | bar
  | line
  | pie
  | area
  deriving DecidableEq

/-- The string value of a `ChartType` member. -/
def ChartType.value : ChartType → String
  | .bar => "bar"
  | .line => "line"
  | .pie => "pie"
  | .area => "area"

/-- `ChartType(chart_type)`: enum lookup by value; `Option.none` models the
`ValueError` raised on an unknown value. -/
def chartTypeOf (s : String) : Option ChartType :=
  if s = "bar" then some .bar
  else if s = "line" then some .line
  else if s = "pie" then some .pie
  else if s = "area" then some .area
  else Option.none

/-- `WeatherCardSchema`. -/
structure WeatherCardSchema where
  location : String
  temperature : Dec
  condition : String
  humidity : Option Int
  wind_speed : Option Dec
  icon : Option String
  deriving DecidableEq

/-- `ChartDataPoint` (`value: Union[int, float]`). -/
structure ChartDataPoint where
  label : String
  value : PyNum
  color : Option String
  deriving DecidableEq

/-- `ChartCardSchema`. -/
structure ChartCardSchema where
  title : String
  chart_type : ChartType
  data : List ChartDataPoint
  x_axis_label : Option String
  y_axis_label : Option String
  deriving DecidableEq

/-- `TableColumn` (`sortable` defaults to `True`). -/
structure TableColumn where
  key : String
  label : String
  sortable : Bool
  deriving DecidableEq

/-- `TableRow` (`data: dict`). -/
structure TableRow where
  data : JObj

/-- `DataTableSchema`. -/
structure DataTableSchema where
  title : String
  columns : List TableColumn
  rows : List TableRow
  searchable : Bool

/-- The admissible `InfoCardSchema.variant` literal values. -/
def infoVariants : List String := ["default", "success", "warning", "error"]

/-- Validity of an `InfoCardSchema.variant` value. -/
def variantOk (v : String) : Bool := infoVariants.contains v

/-- `InfoCardSchema` (variant validated against `infoVariants`). -/
structure InfoCardSchema where
  title : String
  content : String
  icon : Option String
  variant : String
  deriving DecidableEq

/-- An optional int as JSON (`None` → `null`). -/
def optIntJson : Option Int → Json
  | Option.none => .null
  | some n => .int n

/-- An optional float as JSON. -/
def optDecJson : Option Dec → Json
  | Option.none => .null
  | some d => .float d

/-- An optional string as JSON. -/
def optStrJson : Option String → Json
  | Option.none => .null
  | some s => .str s

/-- A `Union[int, float]` value as JSON. -/
def PyNum.toJson : PyNum → Json
  | .int n => .int n
  | .float d => .float d

/-- Build a `JArr` from a list of values. -/
def JArr.ofList : List Json → JArr
  | [] => .nil
  | j :: t => .cons j (JArr.ofList t)

/-- `WeatherCardSchema.model_dump()`. -/
def WeatherCardSchema.modelDump (c : WeatherCardSchema) : Json :=
  .obj (.cons "type" (.str "weather_card")
    (.cons "location" (.str c.location)
      (.cons "temperature" (.float c.temperature)
        (.cons "condition" (.str c.condition)
          (.cons "humidity" (optIntJson c.humidity)
            (.cons "wind_speed" (optDecJson c.wind_speed)
              (.cons "icon" (optStrJson c.icon) .nil)))))))

/-- `ChartDataPoint.model_dump()`. -/
def ChartDataPoint.modelDump (p : ChartDataPoint) : Json :=
  .obj (.cons "label" (.str p.label)
    (.cons "value" p.value.toJson
      (.cons "color" (optStrJson p.color) .nil)))

/-- `ChartCardSchema.model_dump()`. -/
def ChartCardSchema.modelDump (c : ChartCardSchema) : Json :=
  .obj (.cons "type" (.str "chart_card")
    (.cons "title" (.str c.title)
      (.cons "chart_type" (.str c.chart_type.value)
        (.cons "data" (.arr (JArr.ofList (c.data.map ChartDataPoint.modelDump)))
          (.cons "x_axis_label" (optStrJson c.x_axis_label)
            (.cons "y_axis_label" (optStrJson c.y_axis_label) .nil))))))

/-- `TableColumn.model_dump()`. -/
def TableColumn.modelDump (c : TableColumn) : Json :=
  .obj (.cons "key" (.str c.key)
    (.cons "label" (.str c.label)
      (.cons "sortable" (.bool c.sortable) .nil)))

/-- `TableRow.model_dump()`. -/
def TableRow.modelDump (r : TableRow) : Json :=
  .obj (.cons "data" (.obj r.data) .nil)

/-- `DataTableSchema.model_dump()`. -/
def DataTableSchema.modelDump (t : DataTableSchema) : Json :=
  .obj (.cons "type" (.str "data_table")
    (.cons "title" (.str t.title)
      (.cons "columns" (.arr (JArr.ofList (t.columns.map TableColumn.modelDump)))
        (.cons "rows" (.arr (JArr.ofList (t.rows.map TableRow.modelDump)))
          (.cons "searchable" (.bool t.searchable) .nil)))))

/-- `InfoCardSchema.model_dump()`. -/
def InfoCardSchema.modelDump (c : InfoCardSchema) : Json :=
  .obj (.cons "type" (.str "info_card")
    (.cons "title" (.str c.title)
      (.cons "content" (.str c.content)
        (.cons "icon" (optStrJson c.icon)
          (.cons "variant" (.str c.variant) .nil)))))

/-! ### The four component tools (`ui_agent.py`) -/

/-- `float()`/`int()` view of a parsed number, as pydantic coerces it into
a `float` field. -/
def PyNum.toDec : PyNum → Dec
  | .int n => floatOfInt n
  | .float d => d

/-- `int()` view of a parsed number. -/
def PyNum.toInt : PyNum → Int
  | .int n => n
  | .float d => d.truncInt

/-- The `WeatherCardSchema` instance `WeatherCardTool._run` constructs:
`temperature` falls back to `20.0` when unparseable; `humidity` and
`wind_speed` coerce to `None` when unparseable or absent. -/
def weatherCardOf (location : String) (temperature : PyValue) (condition : String)
    (humidity windSpeed : PyValue) (icon : Option String) : WeatherCardSchema :=
  { location := location
    temperature :=
      match parseNumberPy temperature false with
      | some nm => nm.toDec
      | Option.none => ⟨200, 1⟩
    condition := condition
    humidity := (parseNumberPy humidity true).map PyNum.toInt
    wind_speed := (parseNumberPy windSpeed false).map PyNum.toDec
    icon := icon }

/-- `WeatherCardTool._run`: build the schema and return `json.dumps` of its
`model_dump()`. -/
def weatherToolRun (location : String) (temperature : PyValue) (condition : String)
    (humidity windSpeed : PyValue) (icon : Option String) : String :=
  Json.dumps (weatherCardOf location temperature condition humidity windSpeed icon).modelDump

/-- `ChartCardTool._run`; `Option.none` models the `ValueError` from
`ChartType(chart_type)` on an invalid chart type. -/
def chartToolRun (title : String) (chartType : String) (data : List ChartDataPoint)
    (xAxis yAxis : Option String) : Option String :=
  (chartTypeOf chartType).map (fun ct =>
    Json.dumps (ChartCardSchema.modelDump ⟨title, ct, data, xAxis, yAxis⟩))

/-- `DataTableTool._run`: a column argument carries `key`, `label` and an
optional `sortable` (pydantic default `True`). -/
def tableToolRun (title : String) (columns : List (String × String × Option Bool))
    (rows : List JObj) (searchable : Bool) : String :=
  Json.dumps (DataTableSchema.modelDump
    ⟨title, columns.map (fun c => ⟨c.1, c.2.1, (c.2.2).getD true⟩),
      rows.map TableRow.mk, searchable⟩)

/-- `InfoCardTool._run`; `Option.none` models the pydantic validation error
on an invalid `variant` literal. -/
def infoToolRun (title content : String) (icon : Option String) (variant : String) :
    Option String :=
  if variantOk variant then
    some (Json.dumps (InfoCardSchema.modelDump ⟨title, content, icon, variant⟩))
  else Option.none

/-! ### The UIAgent selection graph (`ui_agent.py`) -/

/-- A tool-invocation request the selection model can make, one per tool. -/
inductive UIToolCall where
  | weather (location : String) (temperature : PyValue) (condition : String)
      (humidity windSpeed : PyValue) (icon : Option String)
  | chart (title chartType : String) (data : List ChartDataPoint)
      (xAxis yAxis : Option String)
  | table (title : String) (columns : List (String × String × Option Bool))
      (rows : List JObj) (searchable : Bool)
  | info (title content : String) (icon : Option String) (variant : String)

/-- A conversation message (LangChain `HumanMessage`/`AIMessage`/`ToolMessage`). -/
inductive Msg where
  | human (content : String)
  | ai (content : String) (toolCalls : List UIToolCall)
  | tool (content : String)

/-- `ToolNode` execution: run the named tool; a tool exception becomes an
error-text tool message (LangGraph `ToolNode` behaviour). -/
def execUITool : UIToolCall → String
  | .weather l t c h w i => weatherToolRun l t c h w i
  | .chart t ct d x y => (chartToolRun t ct d x y).getD "Error: tool execution failed"
  | .table t c r s => tableToolRun t c r s
  | .info t c i v => (infoToolRun t c i v).getD "Error: tool execution failed"

/-- The reversed-scan of `_finalize_response`: the first tool message (from
the end) whose content parses as JSON. -/
def firstParsedToolResult : List Msg → Option Json
  | [] => Option.none
  | m :: rest =>
    match m with
    | .tool content =>
      match Json.parse content with
      | some j => some j
      | Option.none => firstParsedToolResult rest
    | _ => firstParsedToolResult rest

/-- A scalar JSON value interpolated into a Python f-string (container
cases use the JSON rendering as an approximation of Python `repr`; the
sources never reach them). -/
def jsonAsPyText : Json → String
  | .str s => s
  | .int n => ⟨intDigits n⟩
  | .float d => ⟨decDigits d⟩
  | .bool true => "True"
  | .bool false => "False"
  | .null => "None"
  | j => Json.dumps j

/-- Look up a key in an object's fields. -/
def JObj.find : JObj → String → Option Json
  | .nil, _ => Option.none
  | .cons k v t, key => if k = key then some v else JObj.find t key

/-- `UIAgent._finalize_response`.  The fallback-reasoning model call is
abstracted as its reply content `reasonContent` (the prompt construction
has no other effect).  `Option.none` models an uncaught exception: a
parsed tool payload that is not a dict (`.get` raises `AttributeError`,
which the scan does not catch), or `json.loads`/pydantic failing on the
fallback card (provably impossible). -/
def finalizeResponse (reasonContent : String) (msgs : List Msg) (answer : String) :
    Option (Json × String) :=
  match firstParsedToolResult msgs.reverse with
  | some j =>
    match j with
    | .obj fields =>
      some (.obj fields,
        "Selected " ++
          (match JObj.find fields "type" with
           | some (.str s) => s
           | some v => jsonAsPyText v
           | Option.none => "component") ++ " based on query content")
    | _ => Option.none
  | Option.none =>
    match infoToolRun "Information" answer Option.none "default" with
    | some fb =>
      match Json.parse fb with
      | some comp => some (comp, pyStrip reasonContent)
      | Option.none => Option.none
    | Option.none => Option.none

/-- Nodes of the `UIAgent` LangGraph workflow. -/
inductive UINode where
  | agent
  | tools
  | finalize
  | done
  deriving DecidableEq

/-- `UIAgent._should_continue` composed with the conditional-edge mapping
`continue → tools, end → finalize`. -/
def uiShouldContinue (lastHasToolCalls : Bool) : UINode :=
  if lastHasToolCalls then .tools else .finalize

/-- The unconditional edge `workflow.add_edge("tools", "finalize")` of
`UIAgent._build_graph`: after tool execution, control goes to finalize. -/
def uiToolsEdge : UINode := .finalize

/-- One run of the compiled `UIAgent` graph (`select_component`): invoke
the selection model once (its reply abstracted as `modelReply`), execute
all requested tools, finalize.  Also returns how many times the
selection model was invoked and how many tool calls were executed. -/
def uiGraphRun (modelReply : String × List UIToolCall) (reasonContent : String)
    (query answer : String) : Option (Json × String) × Nat × Nat :=
  let initial : List Msg :=
    [.human ("User Query: " ++ query ++ " Generated Answer: " ++ answer)]
  let msgs1 := initial ++ [.ai modelReply.1 modelReply.2]
  let next := uiShouldContinue (!modelReply.2.isEmpty)
  match next with
  | .tools =>
    let msgs2 := msgs1 ++ modelReply.2.map (fun tc => Msg.tool (execUITool tc))
    (finalizeResponse reasonContent msgs2 answer, 1, modelReply.2.length)
  | _ => (finalizeResponse reasonContent msgs1 answer, 1, 0)

/-! ### The AnswerAgent graph (`answer_agent.py`) -/

/-- Nodes of the `AnswerAgent` LangGraph workflow. -/
inductive AnswerNode where
  | agent
  | tools
  | done
  deriving DecidableEq

/-- `AnswerAgent._should_continue` composed with the conditional-edge
mapping `continue → tools, end → END`. -/
def answerShouldContinue (lastHasToolCalls : Bool) : AnswerNode :=
  if lastHasToolCalls then .tools else .done

/-- The unconditional edge `workflow.add_edge("tools", "agent")` of
`AnswerAgent._build_graph`: after tool execution, the model is re-invoked. -/
def answerToolsEdge : AnswerNode := .agent

/-- One run of the compiled `AnswerAgent` graph: the model (abstracted as a
function of the turn index, returning reply text and requested
`get_weather` cities) is invoked; tool batches loop back to the model.
`fuel` models LangGraph's recursion limit (`Option.none` = limit hit).
Returns (result, model invocations, tool batches executed). -/
def answerGraphLoop (model : Nat → String × List String) :
    Nat → Nat → Nat → Option String × Nat × Nat
  | 0, calls, batches => (Option.none, calls, batches)
  | fuel + 1, calls, batches =>
    let (content, tcs) := model calls
    match answerShouldContinue (!tcs.isEmpty) with
    | .tools => answerGraphLoop model fuel (calls + 1) (batches + 1)
    | _ => (some content, calls + 1, batches)

/-- The `AnswerAgent` graph run from the initial state. -/
def answerGraphRun (model : Nat → String × List String) (fuel : Nat) :
    Option String × Nat × Nat :=
  answerGraphLoop model fuel 0 0

/-! ### Dynamic-schema agent (`dynamic_ui_agent.py`, `dynamic_tool_generator.py`) -/

/-- `DynamicUIAgent._fallback_info_card`. -/
def dynamicFallbackInfoCard (content : String) (reasoning : String) : Json × String :=
  (.obj (.cons "type" (.str "info_card")
    (.cons "title" (.str "Response")
      (.cons "content" (.str content)
        (.cons "variant" (.str "default") .nil)))), reasoning)

/-- One model decision inside the `AgentExecutor` loop: finish with output
text, or request a tool action. -/
inductive AgentTurn where
  | finish (output : String)
  | act (tool : String) (input : String)

/-- The output `AgentExecutor` substitutes when the iteration cap stops the
loop (`early_stopping_method="force"`). -/
def stoppedMessage : String := "Agent stopped due to iteration limit or time limit."

/-- Modelled from the spec: the langchain `AgentExecutor` tool-calling loop
(section 4.4) — external library code, not under the repository sources.
Each iteration invokes the model once (`plan`, indexed by invocation
count); a finish ends the loop, an action executes a tool and iterates;
when `remaining` hits the iteration cap the stop message is returned
without another model call.  Returns (output, model invocations). -/
def runExecutorLoop (plan : Nat → AgentTurn) : Nat → Nat → String × Nat
  | 0, calls => (stoppedMessage, calls)
  | remaining + 1, calls =>
    match plan calls with
    | .finish out => (out, calls + 1)
    | .act _ _ => runExecutorLoop plan remaining (calls + 1)

/-- `max_iterations=3` from `DynamicUIAgent._create_agent`. -/
def dynamicAgentMaxIterations : Nat := 3

/-- `AgentExecutor.invoke`, with the configured iteration cap. -/
def runAgentExecutor (plan : Nat → AgentTurn) (maxIterations : Nat) : String × Nat :=
  runExecutorLoop plan maxIterations 0

/-- `DynamicUIAgent.select_component`, with the executor run abstracted as
its outcome (`Except.error` = the `invoke` call raising).  A parsed
non-dict output makes `.get` raise `AttributeError`, caught by the outer
`except` (message abstracted). -/
def dynamicSelectComponent (executorOutcome : Except String String) (answer : String) :
    Json × String :=
  match executorOutcome with
  | .error e => dynamicFallbackInfoCard answer ("Error in component selection: " ++ e)
  | .ok out =>
    match Json.parse out with
    | some (.obj fields) =>
      (match JObj.find fields "component" with
       | some c => c
       | Option.none => .obj .nil,
       match JObj.find fields "reasoning" with
       | some (.str s) => s
       | some v => jsonAsPyText v
       | Option.none => "Component selected by agent")
    | some _ =>
      dynamicFallbackInfoCard answer "Error in component selection: AttributeError"
    | Option.none => dynamicFallbackInfoCard answer out

/-- `name.lower().replace(" ", "_")` from `tool_function`. -/
def toolTypeName (name : String) : String :=
  ⟨(pyLower name).toList.map (fun c => if c = ' ' then '_' else c)⟩

/-- Insert a key into a Python dict literal (later assignment overrides,
position of first insertion kept). -/
def pyDictInsert (d : List (String × Json)) (k : String) (v : Json) :
    List (String × Json) :=
  if d.any (fun kv => kv.1 = k) then d.map (fun kv => if kv.1 = k then (k, v) else kv)
  else d ++ [(k, v)]

/-- Build a Python dict from key/value pairs in order. -/
def pyDictOfList (ps : List (String × Json)) : List (String × Json) :=
  ps.foldl (fun d kv => pyDictInsert d kv.1 kv.2) []

/-- Build a `JObj` from a key/value list. -/
def JObj.ofList : List (String × Json) → JObj
  | [] => .nil
  | (k, v) :: t => .cons k v (JObj.ofList t)

/-- `tool_function` from `DynamicToolGenerator.create_tool_from_schema`:
the first required parameter missing from `kwargs` yields the error JSON
naming it; otherwise the component dict `{"type": ..., **kwargs}` is
wrapped with a reasoning string. -/
def toolFunction (required : List String) (schemaName : String)
    (kwargs : List (String × Json)) : String :=
  match required.find? (fun p => !(kwargs.any (fun kv => kv.1 = p))) with
  | some p =>
    Json.dumps (.obj (.cons "error" (.str ("Missing required parameter: " ++ p)) .nil))
  | Option.none =>
    Json.dumps (.obj (.cons "component"
      (.obj (JObj.ofList (pyDictOfList
        (("type", Json.str (toolTypeName schemaName)) :: kwargs))))
      (.cons "reasoning"
        (.str ("Selected " ++ schemaName ++ " component based on the provided data"))
        .nil)))

/-! ### Orchestrator (`graph.py`) -/

/-- A Python exception escaping a node. -/
inductive PyErr where
  | attributeError (cls attr : String)
  | exception (msg : String)
  deriving DecidableEq

/-- The attributes (methods) defined on the `UIAgent` class in
`ui_agent.py`; attribute access on any other name raises
`AttributeError`. -/
def uiAgentMethods : List String :=
  ["__init__", "_build_graph", "_call_model", "_should_continue", "_finalize_response",
   "select_component", "aselect_component"]

/-- Python attribute lookup on a `UIAgent` instance (methods only; the
instance fields are not consulted by `graph.py`). -/
def uiAgentHasAttr (name : String) : Bool := uiAgentMethods.contains name

/-- `GraphState` (the `messages` list is carried in the source but never
read by later nodes; it is omitted here). -/
structure GState where
  query : String
  context : String
  answer : String
  component : Option Json
  reasoning : String
  error : Option String

/-- `MultiAgentGraph._answer_node`, with `generate_answer`'s outcome
abstracted (`Except.error` = it raised). -/
def answerNode (genOutcome : Except String String) (st : GState) : GState :=
  match genOutcome with
  | .ok ans => { st with answer := ans }
  | .error e =>
    { st with
      error := some ("Answer Agent Error: " ++ e)
      answer := "I apologize, but I encountered an error while processing your query." }

/-- `MultiAgentGraph._ui_node`.  On the error path the source calls
`self.ui_agent._fallback_info_card(...)`, a method the `UIAgent` class
does not define, so attribute lookup raises `AttributeError`; the `except`
clause then performs the same missing-attribute call, and that second
`AttributeError` escapes the node. -/
def uiNode (selOutcome : Except String (Json × String)) (st : GState) :
    Except PyErr GState :=
  let body : Except PyErr GState :=
    if st.error.isSome then
      if uiAgentHasAttr "_fallback_info_card" then .ok st
      else .error (.attributeError "UIAgent" "_fallback_info_card")
    else
      match selOutcome with
      | .ok (c, r) => .ok { st with component := some c, reasoning := r }
      | .error e => .error (.exception e)
  match body with
  | .ok st2 => .ok st2
  | .error _ =>
    if uiAgentHasAttr "_fallback_info_card" then .ok st
    else .error (.attributeError "UIAgent" "_fallback_info_card")

/-- `AgentResponse` as assembled by `process_query`. -/
structure AgentResponse where
  answer : String
  component : Option Json
  reasoning : String

/-- `MultiAgentGraph.process_query`: answer node, then UI node, then the
identity finalize node; an exception escaping a node escapes
`graph.invoke` and hence `process_query`. -/
def processQuery (genOutcome : Except String String)
    (selOutcome : Except String (Json × String)) (query context : String) :
    Except PyErr AgentResponse :=
  let st0 : GState := ⟨query, context, "", Option.none, "", Option.none⟩
  let st1 := answerNode genOutcome st0
  (uiNode selOutcome st1).map (fun st2 => ⟨st2.answer, st2.component, st2.reasoning⟩)

/-- The well-formedness of an embedded Python value fed to the weather
tool: any float representation must satisfy the `Dec` invariant. -/
def pyValueWF : PyValue → Bool
  | .float d => decide (1 ≤ d.e)
  | _ => true

/-- Well-formedness of a parsed number (floats satisfy the `Dec`
invariant). -/
def pyNumWF : PyNum → Bool
  | .float d => decide (1 ≤ d.e)
  | _ => true

/-- Little-endian digit list read back as a natural number (specification
device for `natDigitsRev`). -/
def ofDigitsLE : List Nat → Nat
  | [] => 0
  | d :: t => d + 10 * ofDigitsLE t

/-- The input does not start with a decimal digit. -/
def noDigitHead : List Char → Bool
  | [] => true
  | c :: _ => !c.isDigit

/-! ## Theorems -/

/-! ### Digit-printing lemmas -/

theorem natDigitsRev_all_lt (fuel : Nat) : ∀ (n d : Nat), d ∈ natDigitsRev fuel n → d < 10 := by
  induction fuel with
  | zero => intro n d h; simp [natDigitsRev] at h
  | succ fuel ih =>
    intro n d h
    by_cases hn : n = 0
    · simp [natDigitsRev, hn] at h
    · simp only [natDigitsRev, if_neg hn, List.mem_cons] at h
      rcases h with h | h
      · subst h; exact Nat.mod_lt _ (by decide)
      · exact ih _ _ h

theorem digitChar_isDigit : ∀ d : Nat, d < 10 → (digitChar d).isDigit = true := by decide

theorem digitVal_digitChar : ∀ d : Nat, d < 10 → digitVal (digitChar d) = d := by decide

theorem natDigits_all_digit (n : Nat) : ∀ c ∈ natDigits n, c.isDigit = true := by
  intro c hc
  unfold natDigits at hc
  by_cases hn : n = 0
  · simp [hn] at hc; subst hc; decide
  · simp only [if_neg hn, List.mem_reverse, List.mem_map] at hc
    obtain ⟨d, hd, rfl⟩ := hc
    exact digitChar_isDigit d (natDigitsRev_all_lt n n d hd)

theorem natDigitsRev_ne_nil (fuel n : Nat) (h1 : 0 < n) (h2 : 0 < fuel) :
    natDigitsRev fuel n ≠ [] := by
  cases fuel with
  | zero => omega
  | succ fuel => simp [natDigitsRev, Nat.pos_iff_ne_zero.mp h1]

theorem natDigits_ne_nil (n : Nat) : natDigits n ≠ [] := by
  unfold natDigits
  by_cases hn : n = 0
  · simp [hn]
  · simp only [if_neg hn]
    intro h
    rw [List.reverse_eq_nil_iff, List.map_eq_nil_iff] at h
    exact natDigitsRev_ne_nil n n (Nat.pos_of_ne_zero hn) (Nat.pos_of_ne_zero hn) h

theorem ofDigitsLE_natDigitsRev (fuel : Nat) : ∀ n, n ≤ fuel →
    ofDigitsLE (natDigitsRev fuel n) = n := by
  induction fuel with
  | zero => intro n h; interval_cases n; rfl
  | succ fuel ih =>
    intro n h
    by_cases hn : n = 0
    · simp [natDigitsRev, hn, ofDigitsLE]
    · rw [natDigitsRev, if_neg hn]
      show n % 10 + 10 * ofDigitsLE (natDigitsRev fuel (n / 10)) = n
      rw [ih (n / 10) (by omega)]
      omega

theorem digitsToNat_rev_map (ds : List Nat) : ∀ init : Nat, (∀ d ∈ ds, d < 10) →
    List.foldl (fun a c => 10 * a + digitVal c) init ((ds.map digitChar).reverse) =
      init * 10 ^ ds.length + ofDigitsLE ds := by
  induction ds with
  | nil => intro init _; simp [ofDigitsLE]
  | cons d t ih =>
    intro init hlt
    have hd : d < 10 := hlt d (List.mem_cons_self d t)
    simp only [List.map_cons, List.reverse_cons, List.foldl_append, List.foldl_cons,
      List.foldl_nil]
    rw [ih init (fun x hx => hlt x (List.mem_cons_of_mem d hx)),
      digitVal_digitChar d hd]
    simp only [ofDigitsLE, List.length_cons]
    ring

theorem digitsToNat_natDigits (n : Nat) : digitsToNat (natDigits n) = n := by
  unfold natDigits
  by_cases hn : n = 0
  · simp [hn]; decide
  · rw [if_neg hn]
    show List.foldl _ 0 ((( natDigitsRev n n).map digitChar).reverse) = n
    rw [digitsToNat_rev_map _ 0 (fun d hd => natDigitsRev_all_lt n n d hd),
      ofDigitsLE_natDigitsRev n n (le_refl n)]
    simp

theorem natDigitsRev_length_le (fuel : Nat) : ∀ n k, n < 10 ^ k →
    (natDigitsRev fuel n).length ≤ k := by
  induction fuel with
  | zero => intro n k _; simp [natDigitsRev]
  | succ fuel ih =>
    intro n k hk
    by_cases hn : n = 0
    · simp [natDigitsRev, hn]
    · rw [natDigitsRev, if_neg hn]
      cases k with
      | zero => simp at hk; omega
      | succ k =>
        have : n / 10 < 10 ^ k := by
          rw [Nat.div_lt_iff_lt_mul (by decide : 0 < 10)]
          calc n < 10 ^ (k + 1) := hk
            _ = 10 ^ k * 10 := by ring
        simpa using Nat.succ_le_succ (ih (n / 10) k this)

theorem natDigits_length_le (n k : Nat) (h : n < 10 ^ k) (hk : 1 ≤ k) :
    (natDigits n).length ≤ k := by
  unfold natDigits
  by_cases hn : n = 0
  · simpa [hn] using hk
  · rw [if_neg hn]
    simpa using natDigitsRev_length_le n n k h

theorem digitsToNat_replicate_zero (z : Nat) (cs : List Char) :
    digitsToNat (List.replicate z '0' ++ cs) = digitsToNat cs := by
  induction z with
  | zero => simp
  | succ z ih =>
    rw [List.replicate_succ]
    show digitsToNat ('0' :: (List.replicate z '0' ++ cs)) = _
    unfold digitsToNat at *
    simpa using ih

theorem padDigits_length (e : Nat) (cs : List Char) (h : cs.length ≤ e) :
    (padDigits e cs).length = e := by
  simp [padDigits]; omega

theorem padDigits_all_digit (e : Nat) (cs : List Char) (h : ∀ c ∈ cs, c.isDigit = true) :
    ∀ c ∈ padDigits e cs, c.isDigit = true := by
  intro c hc
  rw [padDigits, List.mem_append] at hc
  rcases hc with hc | hc
  · rw [List.eq_of_mem_replicate hc]; decide
  · exact h c hc

theorem digitsToNat_padDigits (e : Nat) (cs : List Char) :
    digitsToNat (padDigits e cs) = digitsToNat cs :=
  digitsToNat_replicate_zero _ _

theorem takeDigits_append (ds : List Char) : ∀ rest, (∀ c ∈ ds, c.isDigit = true) →
    noDigitHead rest = true → takeDigits (ds ++ rest) = (ds, rest) := by
  induction ds with
  | nil =>
    intro rest _ hrest
    cases rest with
    | nil => rfl
    | cons c t =>
      simp only [noDigitHead, Bool.not_eq_true'] at hrest
      simp [takeDigits, hrest]
  | cons d t ih =>
    intro rest hds hrest
    have hd : d.isDigit = true := hds d (List.mem_cons_self d t)
    simp only [List.cons_append, takeDigits, hd, if_pos, List.append_eq]
    rw [ih rest (fun c hc => hds c (List.mem_cons_of_mem d hc)) hrest]

/-! ### Number round-trip lemmas -/

theorem numBoundary_noDigitHead {rest : List Char} (h : numBoundary rest = true) :
    noDigitHead rest = true := by
  cases rest with
  | nil => rfl
  | cons c t =>
    simp only [numBoundary, Bool.and_eq_true, Bool.not_eq_true'] at h
    simp [noDigitHead, h.1]

theorem numBoundary_head_ne_dot {c : Char} {t : List Char}
    (h : numBoundary (c :: t) = true) : c ≠ '.' := by
  simp only [numBoundary, Bool.and_eq_true, decide_eq_true_eq] at h
  exact h.2

theorem natDigits_head (n : Nat) : ∃ c t, natDigits n = c :: t ∧ c.isDigit = true := by
  obtain ⟨c, t, hct⟩ := List.exists_cons_of_ne_nil (natDigits_ne_nil n)
  exact ⟨c, t, hct, natDigits_all_digit n c (hct ▸ List.mem_cons_self c t)⟩

theorem takeDigits_append_fst (ds rest : List Char) (hds : ∀ c ∈ ds, c.isDigit = true)
    (hrest : noDigitHead rest = true) : (takeDigits (ds ++ rest)).1 = ds := by
  rw [takeDigits_append ds rest hds hrest]

theorem takeDigits_append_snd (ds rest : List Char) (hds : ∀ c ∈ ds, c.isDigit = true)
    (hrest : noDigitHead rest = true) : (takeDigits (ds ++ rest)).2 = rest := by
  rw [takeDigits_append ds rest hds hrest]

theorem parseNumCore_natDigits (n : Nat) (rest : List Char) (h : numBoundary rest = true) :
    parseNumCore (natDigits n ++ rest) = some (.int (n : Nat), rest) := by
  simp only [parseNumCore]
  rw [takeDigits_append_fst _ _ (natDigits_all_digit n) (numBoundary_noDigitHead h),
    takeDigits_append_snd _ _ (natDigits_all_digit n) (numBoundary_noDigitHead h),
    if_neg (natDigits_ne_nil n)]
  cases rest with
  | nil => simp [digitsToNat_natDigits]
  | cons r0 rr =>
    have hr0 : r0 ≠ '.' := numBoundary_head_ne_dot h
    split
    · next heq =>
      injection heq with h1 h2
      exact absurd h1 hr0
    · simp [digitsToNat_natDigits]

theorem parseNum_minus (t : List Char) :
    parseNum ('-' :: t) = (parseNumCore t).map (fun p => (negJson p.1, p.2)) := rfl

theorem parseNum_of_digit_head (c : Char) (t : List Char) (hcd : c.isDigit = true) :
    parseNum (c :: t) = parseNumCore (c :: t) := by
  unfold parseNum
  split
  · next heq =>
    injection heq with h1 h2
    rw [h1] at hcd
    exact absurd hcd (by decide)
  · rfl

theorem parseNum_intDigits (n : Int) (rest : List Char) (h : numBoundary rest = true) :
    parseNum (intDigits n ++ rest) = some (.int n, rest) := by
  unfold intDigits
  by_cases hn : n < 0
  · rw [if_pos hn]
    show parseNum ('-' :: (natDigits n.natAbs ++ rest)) = _
    rw [parseNum_minus, parseNumCore_natDigits n.natAbs rest h]
    show some (Json.int (-((n.natAbs : Nat) : Int)), rest) = _
    have hcast : -((n.natAbs : Nat) : Int) = n := by omega
    rw [hcast]
  · rw [if_neg hn]
    obtain ⟨c, t, hct, hcd⟩ := natDigits_head n.natAbs
    rw [hct, List.cons_append, parseNum_of_digit_head c _ hcd, ← List.cons_append, ← hct,
      parseNumCore_natDigits n.natAbs rest h]
    have hcast : ((n.natAbs : Nat) : Int) = n := by omega
    rw [hcast]

theorem parseNumCore_decCore (ip fr e : Nat) (rest : List Char) (he : 1 ≤ e)
    (hfr : fr < 10 ^ e) (h : numBoundary rest = true) :
    parseNumCore ((natDigits ip ++ '.' :: padDigits e (natDigits fr)) ++ rest) =
      some (.float ⟨((ip * 10 ^ e + fr : Nat) : Int), e⟩, rest) := by
  have hpadlen : (padDigits e (natDigits fr)).length = e :=
    padDigits_length e _ (natDigits_length_le fr e hfr he)
  have hpadne : padDigits e (natDigits fr) ≠ [] := by
    intro hnil
    rw [hnil] at hpadlen
    simp at hpadlen
    omega
  have hdot : noDigitHead ('.' :: (padDigits e (natDigits fr) ++ rest)) = true := rfl
  simp only [parseNumCore, List.append_assoc, List.cons_append]
  rw [takeDigits_append_fst _ _ (natDigits_all_digit ip) hdot,
    takeDigits_append_snd _ _ (natDigits_all_digit ip) hdot,
    if_neg (natDigits_ne_nil ip)]
  show (if (takeDigits (padDigits e (natDigits fr) ++ rest)).1 = [] then Option.none
    else some (Json.float ⟨((digitsToNat (natDigits ip) *
        10 ^ (takeDigits (padDigits e (natDigits fr) ++ rest)).1.length +
        digitsToNat (takeDigits (padDigits e (natDigits fr) ++ rest)).1 : Nat) : Int),
        (takeDigits (padDigits e (natDigits fr) ++ rest)).1.length⟩,
      (takeDigits (padDigits e (natDigits fr) ++ rest)).2)) =
    some (Json.float ⟨((ip * 10 ^ e + fr : Nat) : Int), e⟩, rest)
  rw [takeDigits_append_fst _ _ (padDigits_all_digit e _ (natDigits_all_digit fr))
      (numBoundary_noDigitHead h),
    takeDigits_append_snd _ _ (padDigits_all_digit e _ (natDigits_all_digit fr))
      (numBoundary_noDigitHead h),
    if_neg hpadne, hpadlen, digitsToNat_padDigits, digitsToNat_natDigits, digitsToNat_natDigits]

theorem parseNum_decDigits (d : Dec) (rest : List Char) (he : 1 ≤ d.e)
    (h : numBoundary rest = true) :
    parseNum (decDigits d ++ rest) = some (.float d, rest) := by
  obtain ⟨m, e⟩ := d
  simp only at he
  have hfr : m.natAbs % 10 ^ e < 10 ^ e := Nat.mod_lt _ (Nat.pos_pow_of_pos e (by decide))
  have hdm : m.natAbs / 10 ^ e * 10 ^ e + m.natAbs % 10 ^ e = m.natAbs :=
    Nat.div_add_mod' m.natAbs (10 ^ e)
  by_cases hm : m < 0
  · have hshape : decDigits ⟨m, e⟩ ++ rest = '-' :: ((natDigits (m.natAbs / 10 ^ e) ++
        '.' :: padDigits e (natDigits (m.natAbs % 10 ^ e))) ++ rest) := by
      simp [decDigits, hm]
    rw [hshape, parseNum_minus, parseNumCore_decCore _ _ e rest he hfr h]
    show some (Json.float ⟨-(((m.natAbs / 10 ^ e * 10 ^ e + m.natAbs % 10 ^ e : Nat) : Int)),
      e⟩, rest) = _
    have hcast : -(((m.natAbs / 10 ^ e * 10 ^ e + m.natAbs % 10 ^ e : Nat) : Int)) = m := by
      rw [hdm]; omega
    rw [hcast]
  · have hshape : decDigits ⟨m, e⟩ ++ rest = (natDigits (m.natAbs / 10 ^ e) ++
        '.' :: padDigits e (natDigits (m.natAbs % 10 ^ e))) ++ rest := by
      simp [decDigits, hm]
    obtain ⟨c, t, hct, hcd⟩ := natDigits_head (m.natAbs / 10 ^ e)
    rw [hshape, List.append_assoc, hct, List.cons_append,
      parseNum_of_digit_head c _ hcd, ← List.cons_append, ← hct, ← List.append_assoc,
      parseNumCore_decCore _ _ e rest he hfr h]
    have hcast : (((m.natAbs / 10 ^ e * 10 ^ e + m.natAbs % 10 ^ e : Nat) : Int)) = m := by
      rw [hdm]; omega
    rw [hcast]

/-! ### String round-trip lemmas -/

theorem escapeChars_nil : escapeChars [] = [] := rfl

theorem escapeChars_cons (c : Char) (t : List Char) :
    escapeChars (c :: t) = escapeChar c ++ escapeChars t := by
  simp [escapeChars]

theorem hexVal_hexChar : ∀ n : Nat, n < 16 → hexVal (hexChar n) = some n := by decide

theorem parseStringBody_quote (rest : List Char) :
    parseStringBody ('"' :: rest) = some ([], rest) := by
  unfold parseStringBody
  simp

theorem parseStringBody_escape (e u : Char) (hu : unescape e = some u) (he : e ≠ 'u')
    (rest : List Char) : parseStringBody ('\\' :: e :: rest) =
      (parseStringBody rest).map (fun p => (u :: p.1, p.2)) := by
  conv_lhs => rw [parseStringBody.eq_def]
  simp [he, hu]

theorem parseStringBody_u (hi lo : Nat) (hhi : hi < 16) (hlo : lo < 16) (X : List Char) :
    parseStringBody ('\\' :: 'u' :: '0' :: '0' :: hexChar hi :: hexChar lo :: X) =
      (parseStringBody X).map (fun p => (Char.ofNat (hi * 16 + lo) :: p.1, p.2)) := by
  have harith : ((0 * 16 + 0) * 16 + hi) * 16 + lo = hi * 16 + lo := by ring
  conv_lhs => rw [parseStringBody.eq_def]
  simp [show hexVal '0' = some 0 from rfl, hexVal_hexChar hi hhi, hexVal_hexChar lo hlo,
    harith]

theorem parseStringBody_raw (c : Char) (h1 : c ≠ '"') (h2 : c ≠ '\\')
    (h3 : ¬ c.toNat < 32) (rest : List Char) : parseStringBody (c :: rest) =
      (parseStringBody rest).map (fun p => (c :: p.1, p.2)) := by
  conv_lhs => rw [parseStringBody.eq_def]
  simp [h1, h2, h3]

theorem parseStringBody_rt (cs : List Char) : ∀ rest,
    parseStringBody (escapeChars cs ++ '"' :: rest) = some (cs, rest) := by
  induction cs with
  | nil => intro rest; rw [escapeChars_nil, List.nil_append, parseStringBody_quote]
  | cons c t ih =>
    intro rest
    rw [escapeChars_cons, List.append_assoc]
    unfold escapeChar
    split_ifs with h1 h2 h3 h4 h5 h6 h7 h8
    · subst h1
      rw [show (['\\', '"'] : List Char) ++ (escapeChars t ++ '"' :: rest) =
        '\\' :: '"' :: (escapeChars t ++ '"' :: rest) from rfl]
      rw [parseStringBody_escape '"' '"' rfl (by decide), ih rest]
      rfl
    · subst h2
      rw [show (['\\', '\\'] : List Char) ++ (escapeChars t ++ '"' :: rest) =
        '\\' :: '\\' :: (escapeChars t ++ '"' :: rest) from rfl]
      rw [parseStringBody_escape '\\' '\\' rfl (by decide), ih rest]
      rfl
    · subst h3
      rw [show (['\\', 'n'] : List Char) ++ (escapeChars t ++ '"' :: rest) =
        '\\' :: 'n' :: (escapeChars t ++ '"' :: rest) from rfl]
      rw [parseStringBody_escape 'n' '\n' rfl (by decide), ih rest]
      rfl
    · subst h4
      rw [show (['\\', 't'] : List Char) ++ (escapeChars t ++ '"' :: rest) =
        '\\' :: 't' :: (escapeChars t ++ '"' :: rest) from rfl]
      rw [parseStringBody_escape 't' '\t' rfl (by decide), ih rest]
      rfl
    · subst h5
      rw [show (['\\', 'r'] : List Char) ++ (escapeChars t ++ '"' :: rest) =
        '\\' :: 'r' :: (escapeChars t ++ '"' :: rest) from rfl]
      rw [parseStringBody_escape 'r' '\r' rfl (by decide), ih rest]
      rfl
    · subst h6
      rw [show (['\\', 'b'] : List Char) ++ (escapeChars t ++ '"' :: rest) =
        '\\' :: 'b' :: (escapeChars t ++ '"' :: rest) from rfl]
      rw [parseStringBody_escape 'b' '\x08' rfl (by decide), ih rest]
      rfl
    · subst h7
      rw [show (['\\', 'f'] : List Char) ++ (escapeChars t ++ '"' :: rest) =
        '\\' :: 'f' :: (escapeChars t ++ '"' :: rest) from rfl]
      rw [parseStringBody_escape 'f' '\x0c' rfl (by decide), ih rest]
      rfl
    · rw [show (['\\', 'u', '0', '0', hexChar (c.toNat / 16), hexChar (c.toNat % 16)] :
          List Char) ++ (escapeChars t ++ '"' :: rest) =
        '\\' :: 'u' :: '0' :: '0' :: hexChar (c.toNat / 16) :: hexChar (c.toNat % 16) ::
          (escapeChars t ++ '"' :: rest) from rfl]
      rw [parseStringBody_u (c.toNat / 16) (c.toNat % 16) (by omega)
        (Nat.mod_lt _ (by decide)) _, ih rest]
      have hc : c.toNat / 16 * 16 + c.toNat % 16 = c.toNat := Nat.div_add_mod' _ _
      rw [hc, Char.ofNat_toNat]
      rfl
    · rw [show ([c] : List Char) ++ (escapeChars t ++ '"' :: rest) =
        c :: (escapeChars t ++ '"' :: rest) from rfl]
      rw [parseStringBody_raw c h1 h2 h8, ih rest]
      rfl

/-! ### Whitespace and dispatch lemmas for the value parser -/

theorem isDigit_toNat {c : Char} (h : c.isDigit = true) : 48 ≤ c.toNat ∧ c.toNat ≤ 57 := by
  simp [Char.isDigit] at h
  exact h

theorem digit_not_ws {c : Char} (h : c.isDigit = true) : jsonWs c = false := by
  obtain ⟨h1, h2⟩ := isDigit_toNat h
  simp only [jsonWs, Bool.or_eq_false_iff, decide_eq_false_iff_not]
  refine ⟨⟨⟨?_, ?_⟩, ?_⟩, ?_⟩ <;> rintro rfl <;> simp_all

theorem digit_ne {c d : Char} (h : c.isDigit = true) (hd : d.isDigit = false) : c ≠ d := by
  rintro rfl
  rw [h] at hd
  exact absurd hd (by decide)

theorem skipWs_not_ws {c : Char} (t : List Char) (h : jsonWs c = false) :
    skipWs (c :: t) = c :: t := by
  simp [skipWs, List.dropWhile_cons, h]

theorem skipWs_space (t : List Char) : skipWs (' ' :: t) = skipWs t := by
  simp [skipWs, List.dropWhile_cons, show jsonWs ' ' = true from rfl]

theorem parseValueF_ws (fuel : Nat) (X : List Char) :
    parseValueF fuel (' ' :: X) = parseValueF fuel X := by
  cases fuel with
  | zero => rfl
  | succ f => simp only [parseValueF, skipWs_space]

theorem parseArrF_ws (fuel : Nat) (X : List Char) :
    parseArrF fuel (' ' :: X) = parseArrF fuel X := by
  cases fuel with
  | zero => rfl
  | succ f => simp only [parseArrF, parseValueF_ws]

theorem parseObjF_ws (fuel : Nat) (X : List Char) :
    parseObjF fuel (' ' :: X) = parseObjF fuel X := by
  cases fuel with
  | zero => rfl
  | succ f => simp only [parseObjF, skipWs_space]

theorem dumpJson_head (j : Json) :
    ∃ c t, dumpJson j = c :: t ∧ jsonWs c = false ∧ c ≠ ']' := by
  cases j with
  | null => exact ⟨'n', _, rfl, by decide, by decide⟩
  | bool b => cases b with
    | true => exact ⟨'t', _, rfl, by decide, by decide⟩
    | false => exact ⟨'f', _, rfl, by decide, by decide⟩
  | int n =>
    show ∃ c t, intDigits n = c :: t ∧ _
    unfold intDigits
    by_cases hn : n < 0
    · rw [if_pos hn]
      exact ⟨'-', _, rfl, by decide, by decide⟩
    · rw [if_neg hn]
      obtain ⟨c, t, hct, hcd⟩ := natDigits_head n.natAbs
      exact ⟨c, t, hct, digit_not_ws hcd, digit_ne hcd (by decide)⟩
  | float d =>
    show ∃ c t, decDigits d = c :: t ∧ _
    simp only [decDigits]
    by_cases hm : d.m < 0
    · rw [if_pos hm]
      exact ⟨'-', _, rfl, by decide, by decide⟩
    · rw [if_neg hm]
      obtain ⟨c, t, hct, hcd⟩ := natDigits_head (d.m.natAbs / 10 ^ d.e)
      rw [List.nil_append, hct, List.cons_append]
      exact ⟨c, _, rfl, digit_not_ws hcd, digit_ne hcd (by decide)⟩
  | str s => exact ⟨'"', _, rfl, by decide, by decide⟩
  | arr items => exact ⟨'[', _, rfl, by decide, by decide⟩
  | obj fields => exact ⟨lbrace, _, rfl, by decide, by decide⟩

theorem digit_char_cases {c : Char} (h : c.isDigit = true) :
    c = '0' ∨ c = '1' ∨ c = '2' ∨ c = '3' ∨ c = '4' ∨ c = '5' ∨ c = '6' ∨ c = '7' ∨
      c = '8' ∨ c = '9' := by
  obtain ⟨h1, h2⟩ := isDigit_toNat h
  have hn : c.toNat = 48 ∨ c.toNat = 49 ∨ c.toNat = 50 ∨ c.toNat = 51 ∨ c.toNat = 52 ∨
      c.toNat = 53 ∨ c.toNat = 54 ∨ c.toNat = 55 ∨ c.toNat = 56 ∨ c.toNat = 57 := by omega
  rcases hn with h3 | h3 | h3 | h3 | h3 | h3 | h3 | h3 | h3 | h3 <;>
    rw [← Char.ofNat_toNat c, h3] <;> simp

theorem parseValueF_num (fuel : Nat) (c : Char) (t : List Char)
    (h : c = '-' ∨ c.isDigit = true) :
    parseValueF (fuel + 1) (c :: t) = parseNum (c :: t) := by
  rcases h with rfl | hd
  · rfl
  · rcases digit_char_cases hd with rfl | rfl | rfl | rfl | rfl | rfl | rfl | rfl | rfl |
      rfl <;> rfl

/-! ### The value-level round trip -/

theorem intDigits_head (n : Int) :
    ∃ c t, intDigits n = c :: t ∧ (c = '-' ∨ c.isDigit = true) := by
  unfold intDigits
  by_cases hn : n < 0
  · rw [if_pos hn]; exact ⟨'-', _, rfl, Or.inl rfl⟩
  · rw [if_neg hn]
    obtain ⟨c, t, hct, hcd⟩ := natDigits_head n.natAbs
    exact ⟨c, t, hct, Or.inr hcd⟩

theorem decDigits_head (d : Dec) :
    ∃ c t, decDigits d = c :: t ∧ (c = '-' ∨ c.isDigit = true) := by
  simp only [decDigits]
  by_cases hm : d.m < 0
  · rw [if_pos hm]; exact ⟨'-', _, rfl, Or.inl rfl⟩
  · rw [if_neg hm]
    obtain ⟨c, t, hct, hcd⟩ := natDigits_head (d.m.natAbs / 10 ^ d.e)
    rw [List.nil_append, hct, List.cons_append]
    exact ⟨c, _, rfl, Or.inr hcd⟩

theorem numBoundary_dumpArrSep (t : JArr) (rest : List Char) :
    numBoundary (dumpArrSep t ++ rest) = true := by
  cases t <;> rfl

theorem numBoundary_dumpObjSep (t : JObj) (rest : List Char) :
    numBoundary (dumpObjSep t ++ rest) = true := by
  cases t <;> rfl

theorem aweight_cons_pos (h : Json) (t : JArr) : 1 ≤ aweight (.cons h t) := by
  simp [aweight]

theorem oweight_cons_pos (k : String) (v : Json) (t : JObj) :
    1 ≤ oweight (.cons k v t) := by
  simp [oweight]

theorem strQuote_append (k : String) (X : List Char) :
    strQuote k ++ X = '"' :: (escapeChars k.toList ++ '"' :: X) := by
  simp [strQuote]

theorem json_sizeOf_pos (j : Json) : 1 ≤ sizeOf j := by
  cases j <;> simp

theorem jarr_sizeOf_pos (t : JArr) : 1 ≤ sizeOf t := by
  cases t <;> simp_arith

theorem jobj_sizeOf_pos (t : JObj) : 1 ≤ sizeOf t := by
  cases t <;> simp_arith

theorem parse_dump_master : ∀ n : Nat,
    (∀ j, sizeOf j ≤ n → ∀ fuel rest, jweight j ≤ fuel → jwf j = true →
      numBoundary rest = true → parseValueF fuel (dumpJson j ++ rest) = some (j, rest)) ∧
    (∀ h t, sizeOf h + sizeOf t ≤ n → ∀ fuel rest, aweight (.cons h t) ≤ fuel →
      awf (.cons h t) = true →
      parseArrF fuel (dumpJson h ++ dumpArrSep t ++ rest) = some (.cons h t, rest)) ∧
    (∀ k v t, sizeOf v + sizeOf t ≤ n → ∀ fuel rest, oweight (.cons k v t) ≤ fuel →
      owf (.cons k v t) = true →
      parseObjF fuel (dumpObj (.cons k v t) ++ rest) = some (.cons k v t, rest)) := by
  intro n
  induction n using Nat.strong_induction_on with
  | _ n ih =>
    refine ⟨?_, ?_, ?_⟩
    · intro j hsz fuel rest hw hwf hb
      cases fuel with
      | zero =>
        exfalso
        cases j <;> simp [jweight] at hw
      | succ f =>
        cases j with
        | null => rfl
        | bool b => cases b <;> rfl
        | int n2 =>
          obtain ⟨c, t, hct, hc⟩ := intDigits_head n2
          show parseValueF (f + 1) (intDigits n2 ++ rest) = some (Json.int n2, rest)
          rw [hct, List.cons_append, parseValueF_num f c _ hc, ← List.cons_append, ← hct,
            parseNum_intDigits n2 rest hb]
        | float d =>
          obtain ⟨c, t, hct, hc⟩ := decDigits_head d
          have he : 1 ≤ d.e := by
            have hrfl : jwf (.float d) = decide (1 ≤ d.e) := rfl
            rw [hrfl] at hwf
            exact of_decide_eq_true hwf
          show parseValueF (f + 1) (decDigits d ++ rest) = some (Json.float d, rest)
          rw [hct, List.cons_append, parseValueF_num f c _ hc, ← List.cons_append, ← hct,
            parseNum_decDigits d rest he hb]
        | str s =>
          show parseValueF (f + 1) (strQuote s ++ rest) = some (Json.str s, rest)
          rw [strQuote_append]
          show (parseStringBody (escapeChars s.toList ++ '"' :: rest)).map
            (fun p => (Json.str ⟨p.1⟩, p.2)) = some (Json.str s, rest)
          rw [parseStringBody_rt s.toList rest]
          rfl
        | arr items =>
          cases items with
          | nil => rfl
          | cons h t =>
            have hlt : sizeOf h + sizeOf t < n := by
              have hspec : sizeOf (Json.arr (JArr.cons h t)) =
                  1 + (1 + sizeOf h + sizeOf t) := by simp
              omega
            have hw2 : aweight (.cons h t) ≤ f := by
              have hrfl : jweight (.arr (.cons h t)) = 1 + aweight (.cons h t) := rfl
              omega
            have hwf2 : awf (.cons h t) = true := hwf
            obtain ⟨c, t2, hct, hws, hne⟩ := dumpJson_head h
            show parseValueF (f + 1) (('[' :: (dumpJson h ++ dumpArrSep t)) ++ rest) =
              some (Json.arr (JArr.cons h t), rest)
            simp only [parseValueF, List.cons_append]
            rw [skipWs_not_ws _ (by decide)]
            show (match skipWs ((dumpJson h ++ dumpArrSep t) ++ rest) with
              | ']' :: r => some (Json.arr .nil, r)
              | t2 => (parseArrF f t2).map (fun p => (Json.arr p.1, p.2))) =
              some (Json.arr (JArr.cons h t), rest)
            rw [List.append_assoc, hct, List.cons_append, skipWs_not_ws _ hws]
            split
            · next heq =>
              injection heq with h1 _
              exact absurd h1 hne
            · next =>
              rw [← List.cons_append, ← hct, ← List.append_assoc,
                (ih _ hlt).2.1 h t (le_refl _) f rest hw2 hwf2]
              rfl
        | obj fields =>
          cases fields with
          | nil => rfl
          | cons k v t =>
            have hlt : sizeOf v + sizeOf t < n := by
              have hspec : sizeOf (Json.obj (JObj.cons k v t)) =
                  1 + (1 + sizeOf k + sizeOf v + sizeOf t) := by simp
              have hk : 0 ≤ sizeOf k := Nat.zero_le _
              omega
            have hw2 : oweight (.cons k v t) ≤ f := by
              have hrfl : jweight (.obj (.cons k v t)) = 1 + oweight (.cons k v t) := rfl
              omega
            have hwf2 : owf (.cons k v t) = true := hwf
            show parseValueF (f + 1) ((lbrace :: dumpObj (.cons k v t)) ++ rest) =
              some (Json.obj (JObj.cons k v t), rest)
            simp only [parseValueF, List.cons_append]
            rw [skipWs_not_ws _ (by decide)]
            show (match skipWs (dumpObj (.cons k v t) ++ rest) with
              | c2 :: r =>
                if c2 = rbrace then some (Json.obj JObj.nil, r)
                else (parseObjF f (c2 :: r)).map (fun p => (Json.obj p.1, p.2))
              | [] => Option.none) = some (Json.obj (JObj.cons k v t), rest)
            have hsq : dumpObj (.cons k v t) ++ rest = '"' :: (escapeChars k.toList ++
                '"' :: ((':' :: ' ' :: (dumpJson v ++ dumpObjSep t)) ++ rest)) := by
              show (strQuote k ++ ':' :: ' ' :: (dumpJson v ++ dumpObjSep t)) ++ rest = _
              rw [List.append_assoc, strQuote_append]
            rw [hsq, skipWs_not_ws _ (by decide)]
            show (parseObjF f ('"' :: (escapeChars k.toList ++ '"' ::
                ((':' :: ' ' :: (dumpJson v ++ dumpObjSep t)) ++ rest)))).map
              (fun p => (Json.obj p.1, p.2)) = some (Json.obj (JObj.cons k v t), rest)
            rw [← hsq, (ih _ hlt).2.2 k v t (le_refl _) f rest hw2 hwf2]
            rfl
    · intro h t hsz fuel rest hw hwf
      have hwf2 : jwf h = true ∧ awf t = true := by
        simpa [awf, Bool.and_eq_true] using hwf
      cases fuel with
      | zero =>
        exfalso
        have := aweight_cons_pos h t
        omega
      | succ f =>
        have hwh : jweight h ≤ f := by
          have hmx : jweight h ≤ max (jweight h) (aweight t) := Nat.le_max_left _ _
          have hrfl : aweight (.cons h t) = 1 + max (jweight h) (aweight t) := rfl
          omega
        have hwt : aweight t ≤ f := by
          have hmx : aweight t ≤ max (jweight h) (aweight t) := Nat.le_max_right _ _
          have hrfl : aweight (.cons h t) = 1 + max (jweight h) (aweight t) := rfl
          omega
        have hlth : sizeOf h < n := by
          have := jarr_sizeOf_pos t
          omega
        simp only [parseArrF]
        rw [List.append_assoc, (ih _ hlth).1 h (le_refl _) f (dumpArrSep t ++ rest) hwh
          hwf2.1 (numBoundary_dumpArrSep t rest)]
        cases t with
        | nil =>
          show (match skipWs (dumpArrSep JArr.nil ++ rest) with
            | ',' :: r => (parseArrF f r).map (fun p => (JArr.cons h p.1, p.2))
            | ']' :: r => some (JArr.cons h .nil, r)
            | _ => Option.none) = some (JArr.cons h JArr.nil, rest)
          rw [show dumpArrSep JArr.nil ++ rest = ']' :: rest from rfl,
            skipWs_not_ws _ (by decide)]
          rfl
        | cons h2 t2 =>
          have hlt2 : sizeOf h2 + sizeOf t2 < n := by
            have hspec : sizeOf (JArr.cons h2 t2) = 1 + sizeOf h2 + sizeOf t2 := by simp
            have := json_sizeOf_pos h
            omega
          show (match skipWs (dumpArrSep (JArr.cons h2 t2) ++ rest) with
            | ',' :: r => (parseArrF f r).map (fun p => (JArr.cons h p.1, p.2))
            | ']' :: r => some (JArr.cons h .nil, r)
            | _ => Option.none) = some (JArr.cons h (JArr.cons h2 t2), rest)
          rw [show dumpArrSep (JArr.cons h2 t2) ++ rest =
              ',' :: ' ' :: ((dumpJson h2 ++ dumpArrSep t2) ++ rest) from by
            simp [dumpArrSep], skipWs_not_ws _ (by decide)]
          show (parseArrF f (' ' :: ((dumpJson h2 ++ dumpArrSep t2) ++ rest))).map
            (fun p => (JArr.cons h p.1, p.2)) = some (JArr.cons h (JArr.cons h2 t2), rest)
          rw [parseArrF_ws, (ih _ hlt2).2.1 h2 t2 (le_refl _) f rest hwt hwf2.2]
          rfl
    · intro k v t hsz fuel rest hw hwf
      have hwf2 : jwf v = true ∧ owf t = true := by
        simpa [owf, Bool.and_eq_true] using hwf
      cases fuel with
      | zero =>
        exfalso
        have := oweight_cons_pos k v t
        omega
      | succ f =>
        have hwv : jweight v ≤ f := by
          have hmx : jweight v ≤ max (jweight v) (oweight t) := Nat.le_max_left _ _
          have hrfl : oweight (.cons k v t) = 1 + max (jweight v) (oweight t) := rfl
          omega
        have hwt : oweight t ≤ f := by
          have hmx : oweight t ≤ max (jweight v) (oweight t) := Nat.le_max_right _ _
          have hrfl : oweight (.cons k v t) = 1 + max (jweight v) (oweight t) := rfl
          omega
        have hltv : sizeOf v < n := by
          have := jobj_sizeOf_pos t
          omega
        have hsq : dumpObj (.cons k v t) ++ rest = '"' :: (escapeChars k.toList ++ '"' ::
            ((':' :: ' ' :: (dumpJson v ++ dumpObjSep t)) ++ rest)) := by
          show (strQuote k ++ ':' :: ' ' :: (dumpJson v ++ dumpObjSep t)) ++ rest = _
          rw [List.append_assoc, strQuote_append]
        simp only [parseObjF]
        rw [hsq, skipWs_not_ws _ (by decide)]
        show (match parseStringBody (escapeChars k.toList ++ '"' ::
            ((':' :: ' ' :: (dumpJson v ++ dumpObjSep t)) ++ rest)) with
          | Option.none => Option.none
          | some (key, rest1) =>
            match skipWs rest1 with
            | ':' :: r =>
              match parseValueF f r with
              | Option.none => Option.none
              | some (val, rest2) =>
                match skipWs rest2 with
                | ',' :: r2 => (parseObjF f r2).map (fun p => (JObj.cons ⟨key⟩ val p.1, p.2))
                | c2 :: r2 =>
                  if c2 = rbrace then some (JObj.cons ⟨key⟩ val .nil, r2) else Option.none
                | [] => Option.none
            | _ => Option.none) = some (JObj.cons k v t, rest)
        rw [parseStringBody_rt k.toList]
        show (match skipWs ((':' :: ' ' :: (dumpJson v ++ dumpObjSep t)) ++ rest) with
          | ':' :: r =>
            match parseValueF f r with
            | Option.none => Option.none
            | some (val, rest2) =>
              match skipWs rest2 with
              | ',' :: r2 =>
                (parseObjF f r2).map (fun p => (JObj.cons ⟨k.toList⟩ val p.1, p.2))
              | c2 :: r2 =>
                if c2 = rbrace then some (JObj.cons ⟨k.toList⟩ val .nil, r2) else Option.none
              | [] => Option.none
          | _ => Option.none) = some (JObj.cons k v t, rest)
        rw [List.cons_append, skipWs_not_ws _ (by decide)]
        show (match parseValueF f (' ' :: ((dumpJson v ++ dumpObjSep t) ++ rest)) with
          | Option.none => Option.none
          | some (val, rest2) =>
            match skipWs rest2 with
            | ',' :: r2 => (parseObjF f r2).map (fun p => (JObj.cons ⟨k.toList⟩ val p.1, p.2))
            | c2 :: r2 =>
              if c2 = rbrace then some (JObj.cons ⟨k.toList⟩ val .nil, r2) else Option.none
            | [] => Option.none) = some (JObj.cons k v t, rest)
        rw [parseValueF_ws, List.append_assoc, (ih _ hltv).1 v (le_refl _) f
          (dumpObjSep t ++ rest) hwv hwf2.1 (numBoundary_dumpObjSep t rest)]
        cases t with
        | nil =>
          show (match skipWs (dumpObjSep JObj.nil ++ rest) with
            | ',' :: r2 => (parseObjF f r2).map (fun p => (JObj.cons ⟨k.toList⟩ v p.1, p.2))
            | c2 :: r2 =>
              if c2 = rbrace then some (JObj.cons ⟨k.toList⟩ v .nil, r2) else Option.none
            | [] => Option.none) = some (JObj.cons k v JObj.nil, rest)
          rw [show dumpObjSep JObj.nil ++ rest = rbrace :: rest from rfl,
            skipWs_not_ws _ (by decide)]
          split
          · next heq =>
            injection heq with h1 _
            exact absurd h1.symm (by decide)
          · next c2 r2 heq =>
            injection heq with h1 h2
            subst h1; subst h2
            rw [if_pos rfl]
            rfl
          · next heq => cases heq
        | cons k2 v2 t2 =>
          have hlt2 : sizeOf v2 + sizeOf t2 < n := by
            have hspec : sizeOf (JObj.cons k2 v2 t2) =
                1 + sizeOf k2 + sizeOf v2 + sizeOf t2 := by simp
            have := json_sizeOf_pos v
            have hk2 : 0 ≤ sizeOf k2 := Nat.zero_le _
            omega
          show (match skipWs (dumpObjSep (JObj.cons k2 v2 t2) ++ rest) with
            | ',' :: r2 => (parseObjF f r2).map (fun p => (JObj.cons ⟨k.toList⟩ v p.1, p.2))
            | c2 :: r2 =>
              if c2 = rbrace then some (JObj.cons ⟨k.toList⟩ v .nil, r2) else Option.none
            | [] => Option.none) = some (JObj.cons k v (JObj.cons k2 v2 t2), rest)
          rw [show dumpObjSep (JObj.cons k2 v2 t2) ++ rest =
              ',' :: ' ' :: (dumpObj (JObj.cons k2 v2 t2) ++ rest) from by
            simp [dumpObjSep, dumpObj], skipWs_not_ws _ (by decide)]
          show (parseObjF f (' ' :: (dumpObj (JObj.cons k2 v2 t2) ++ rest))).map
            (fun p => (JObj.cons ⟨k.toList⟩ v p.1, p.2)) =
            some (JObj.cons k v (JObj.cons k2 v2 t2), rest)
          rw [parseObjF_ws, (ih _ hlt2).2.2 k2 v2 t2 (le_refl _) f rest hwt hwf2.2]
          rfl

theorem parse_dump_value (j : Json) (fuel : Nat) (rest : List Char)
    (hw : jweight j ≤ fuel) (hwf : jwf j = true) (hb : numBoundary rest = true) :
    parseValueF fuel (dumpJson j ++ rest) = some (j, rest) :=
  (parse_dump_master (sizeOf j)).1 j (le_refl _) fuel rest hw hwf hb

theorem dumpJson_length_pos (j : Json) : 1 ≤ (dumpJson j).length := by
  obtain ⟨c, t, hct, -, -⟩ := dumpJson_head j
  rw [hct]
  simp

theorem weight_le_length_master : ∀ n : Nat,
    (∀ j, sizeOf j ≤ n → jweight j ≤ (dumpJson j).length) ∧
    (∀ h t, sizeOf h + sizeOf t ≤ n →
      aweight (.cons h t) ≤ (dumpJson h ++ dumpArrSep t).length) ∧
    (∀ k v t, sizeOf v + sizeOf t ≤ n →
      oweight (.cons k v t) ≤ (dumpObj (.cons k v t)).length) := by
  intro n
  induction n using Nat.strong_induction_on with
  | _ n ih =>
    refine ⟨?_, ?_, ?_⟩
    · intro j hsz
      cases j with
      | null => decide
      | bool b => cases b <;> decide
      | int n2 =>
        have := dumpJson_length_pos (.int n2)
        have hw : jweight (Json.int n2) = 1 := rfl
        omega
      | float d =>
        have := dumpJson_length_pos (.float d)
        have hw : jweight (Json.float d) = 1 := rfl
        omega
      | str s =>
        have := dumpJson_length_pos (.str s)
        have hw : jweight (Json.str s) = 1 := rfl
        omega
      | arr items =>
        cases items with
        | nil => decide
        | cons h t =>
          have hlt : sizeOf h + sizeOf t < n := by
            have hspec : sizeOf (Json.arr (JArr.cons h t)) =
                1 + (1 + sizeOf h + sizeOf t) := by simp
            omega
          have hB := (ih _ hlt).2.1 h t (le_refl _)
          have hw : jweight (Json.arr (JArr.cons h t)) = 1 + aweight (.cons h t) := rfl
          have hl : (dumpJson (Json.arr (JArr.cons h t))).length =
              1 + (dumpJson h ++ dumpArrSep t).length := by
            show ('[' :: (dumpJson h ++ dumpArrSep t)).length = _
            simp
            omega
          omega
      | obj fields =>
        cases fields with
        | nil => decide
        | cons k v t =>
          have hlt : sizeOf v + sizeOf t < n := by
            have hspec : sizeOf (Json.obj (JObj.cons k v t)) =
                1 + (1 + sizeOf k + sizeOf v + sizeOf t) := by simp
            omega
          have hC := (ih _ hlt).2.2 k v t (le_refl _)
          have hw : jweight (Json.obj (JObj.cons k v t)) = 1 + oweight (.cons k v t) := rfl
          have hl : (dumpJson (Json.obj (JObj.cons k v t))).length =
              1 + (dumpObj (JObj.cons k v t)).length := by
            show (lbrace :: dumpObj (JObj.cons k v t)).length = _
            simp
            omega
          omega
    · intro h t hsz
      have hlth : sizeOf h < n := by
        have := jarr_sizeOf_pos t
        omega
      have hA := (ih _ hlth).1 h (le_refl _)
      cases t with
      | nil =>
        have hw : aweight (.cons h .nil) = 1 + max (jweight h) 0 := rfl
        have hl : (dumpJson h ++ dumpArrSep JArr.nil).length = (dumpJson h).length + 1 := by
          simp [dumpArrSep]
        have hmx : max (jweight h) 0 = jweight h := by omega
        omega
      | cons h2 t2 =>
        have hlt2 : sizeOf h2 + sizeOf t2 < n := by
          have hspec : sizeOf (JArr.cons h2 t2) = 1 + sizeOf h2 + sizeOf t2 := by simp
          have := json_sizeOf_pos h
          omega
        have hB2 := (ih _ hlt2).2.1 h2 t2 (le_refl _)
        have hw : aweight (.cons h (.cons h2 t2)) =
            1 + max (jweight h) (aweight (.cons h2 t2)) := rfl
        have hl : (dumpJson h ++ dumpArrSep (JArr.cons h2 t2)).length =
            (dumpJson h).length + 2 + (dumpJson h2 ++ dumpArrSep t2).length := by
          simp [dumpArrSep]
          omega
        have hlh := dumpJson_length_pos h
        have hmax2 : max (jweight h) (aweight (.cons h2 t2)) ≤
            (dumpJson h).length + 1 + (dumpJson h2 ++ dumpArrSep t2).length := by
          apply max_le <;> omega
        omega
    · intro k v t hsz
      have hltv : sizeOf v < n := by
        have := jobj_sizeOf_pos t
        omega
      have hA := (ih _ hltv).1 v (le_refl _)
      have hkq : 2 ≤ (strQuote k).length := by
        simp [strQuote]
      cases t with
      | nil =>
        have hw : oweight (.cons k v .nil) = 1 + max (jweight v) 0 := rfl
        have hl : (dumpObj (JObj.cons k v JObj.nil)).length =
            (strQuote k).length + 2 + (dumpJson v).length + 1 := by
          show (strQuote k ++ ':' :: ' ' :: (dumpJson v ++ dumpObjSep JObj.nil)).length = _
          simp [dumpObjSep]
          omega
        have hmx : max (jweight v) 0 = jweight v := by omega
        omega
      | cons k2 v2 t2 =>
        have hlt2 : sizeOf v2 + sizeOf t2 < n := by
          have hspec : sizeOf (JObj.cons k2 v2 t2) =
              1 + sizeOf k2 + sizeOf v2 + sizeOf t2 := by simp
          have := json_sizeOf_pos v
          omega
        have hC2 := (ih _ hlt2).2.2 k2 v2 t2 (le_refl _)
        have hw : oweight (.cons k v (.cons k2 v2 t2)) =
            1 + max (jweight v) (oweight (.cons k2 v2 t2)) := rfl
        have hl : (dumpObj (JObj.cons k v (JObj.cons k2 v2 t2))).length =
            (strQuote k).length + 2 + (dumpJson v).length + 2 +
              (dumpObj (JObj.cons k2 v2 t2)).length := by
          show (strQuote k ++ ':' :: ' ' ::
            (dumpJson v ++ dumpObjSep (JObj.cons k2 v2 t2))).length = _
          have hsep : dumpObjSep (JObj.cons k2 v2 t2) =
              ',' :: ' ' :: dumpObj (JObj.cons k2 v2 t2) := rfl
          rw [hsep]
          simp
          omega
        have hmax2 : max (jweight v) (oweight (.cons k2 v2 t2)) ≤
            (dumpJson v).length + 2 + (dumpObj (JObj.cons k2 v2 t2)).length := by
          apply max_le <;> omega
        omega

/-- The central serialization fact: `json.loads(json.dumps(x)) == x` for
every well-formed value this system produces. -/
theorem json_parse_dumps (j : Json) (hwf : jwf j = true) :
    Json.parse (Json.dumps j) = some j := by
  have hwl : jweight j ≤ (dumpJson j).length :=
    (weight_le_length_master (sizeOf j)).1 j (le_refl _)
  have h1 : parseValueF ((dumpJson j).length + 1) (dumpJson j ++ []) = some (j, []) :=
    parse_dump_value j _ [] (by omega) hwf rfl
  rw [List.append_nil] at h1
  show (match parseValueF ((dumpJson j).length + 1) (dumpJson j) with
    | some (v, rest) => if skipWs rest = [] then some v else Option.none
    | Option.none => Option.none) = some j
  rw [h1]
  rfl

/-- C1: whenever the lowercased concatenation `query ++ " " ++ answer`
contains a weather keyword, `_rule_based_routing` returns `data_display`,
regardless of which chart/table/informational keywords are also present:
the weather check is the first branch of the scan. -/
theorem rule_router_weather_always_data_display (query answer : String)
    (h : weatherWords.any (fun w => pyIn w (pyLower (query ++ " " ++ answer))) = true) :
    ruleBasedRouting query answer = some "data_display" := by
  simp only [ruleBasedRouting]
  rw [if_pos h]

/-- Witness for C1: a text mentioning both "weather" and "chart" resolves to
`data_display`, never `data_visualization`. -/
theorem rule_router_weather_always_data_display_witness :
    ruleBasedRouting "What is the weather today" "Here is a chart of temperatures" =
      some "data_display" :=
  rule_router_weather_always_data_display
    "What is the weather today" "Here is a chart of temperatures" (by decide)

/-- C5: the model-based router fallback is total (it always returns one of
the known categories, never raising): a reply that strips+lowers to a known
category name returns that category; otherwise the first category related to
the reply by substring containment in either direction is returned;
otherwise, and when the model call raises (`resp = none`), it returns
`"content"`. -/
theorem llm_router_two_level_fallback (resp : Option String) :
    llmBasedRouting resp ∈ categoryKeys ∧
    (resp = none → llmBasedRouting resp = "content") ∧
    (∀ r, resp = some r →
      (categoryKeys.contains (pyLower (pyStrip r)) = true →
        llmBasedRouting resp = pyLower (pyStrip r)) ∧
      (∀ cat, categoryKeys.contains (pyLower (pyStrip r)) = false →
        categoryKeys.find?
          (fun k => pyIn k (pyLower (pyStrip r)) || pyIn (pyLower (pyStrip r)) k) = some cat →
        llmBasedRouting resp = cat) ∧
      (categoryKeys.contains (pyLower (pyStrip r)) = false →
        categoryKeys.find?
          (fun k => pyIn k (pyLower (pyStrip r)) || pyIn (pyLower (pyStrip r)) k) = none →
        llmBasedRouting resp = "content")) := by
  refine ⟨?_, ?_, ?_⟩
  · cases resp with
    | none => simp [llmBasedRouting, categoryKeys]
    | some r =>
      simp only [llmBasedRouting]
      by_cases h : categoryKeys.contains (pyLower (pyStrip r)) = true
      · rw [if_pos h]
        exact List.mem_of_elem_eq_true h
      · rw [if_neg h]
        cases hf : categoryKeys.find?
            (fun k => pyIn k (pyLower (pyStrip r)) || pyIn (pyLower (pyStrip r)) k) with
        | some cat =>
          simp only [hf]
          exact List.mem_of_find?_eq_some hf
        | none => simp [hf, categoryKeys]
  · intro h; subst h; rfl
  · intro r hr; subst hr
    refine ⟨?_, ?_, ?_⟩
    · intro h
      simp only [llmBasedRouting]
      rw [if_pos h]
    · intro cat h hf
      simp only [llmBasedRouting]
      rw [if_neg (by rw [h]; decide), hf]
    · intro h hf
      simp only [llmBasedRouting]
      rw [if_neg (by rw [h]; decide), hf]

/-- Witness for C5: a fuzzy reply `" Data_Display\n"` exact-matches after
strip+lower; the reply `"i suggest data_visualization"` matches by
containment; `"xyzzy"` and a raised exception both default to `"content"`. -/
theorem llm_router_two_level_fallback_witness :
    llmBasedRouting (some " Data_Display\n") = "data_display" ∧
    llmBasedRouting (some "i suggest data_visualization") = "data_visualization" ∧
    llmBasedRouting (some "xyzzy") = "content" ∧
    llmBasedRouting none = "content" :=
  ⟨((llm_router_two_level_fallback (some " Data_Display\n")).2.2
      " Data_Display\n" rfl).1 (by decide),
   ((llm_router_two_level_fallback (some "i suggest data_visualization")).2.2
      "i suggest data_visualization" rfl).2.1 "data_visualization" (by decide) (by decide),
   ((llm_router_two_level_fallback (some "xyzzy")).2.2
      "xyzzy" rfl).2.2 (by decide) (by decide),
   (llm_router_two_level_fallback none).2.1 rfl⟩

/-! ### Well-formedness of produced values -/

theorem decOfMatch_wf (neg : Bool) (intDs fracDs : List Char) :
    1 ≤ (decOfMatch neg intDs fracDs).e := by
  simp only [decOfMatch]
  by_cases hf : fracDs.isEmpty
  · simp [hf]
  · simp only [hf, Bool.false_eq_true, if_false]
    cases fracDs with
    | nil => simp at hf
    | cons a b => simp_arith

theorem parseNumberPy_wf (v : PyValue) (isInt : Bool) (hv : pyValueWF v = true) :
    ∀ nm, parseNumberPy v isInt = some nm → pyNumWF nm = true := by
  intro nm hnm
  cases v with
  | none => simp [parseNumberPy] at hnm
  | int n =>
    simp only [parseNumberPy, Option.some.injEq] at hnm
    subst hnm
    cases isInt <;> simp [pyNumWF, floatOfInt]
  | float d =>
    simp only [parseNumberPy, Option.some.injEq] at hnm
    subst hnm
    cases isInt <;> simp_all [pyNumWF, pyValueWF]
  | str s =>
    simp only [parseNumberPy] at hnm
    cases hfind : findNumber s.toList with
    | none => rw [hfind] at hnm; cases hnm
    | some m =>
      obtain ⟨neg, ds, fs, r⟩ := m
      rw [hfind] at hnm
      simp only [Option.some.injEq] at hnm
      subst hnm
      cases isInt with
      | true => simp [pyNumWF]
      | false => simpa [pyNumWF] using decOfMatch_wf neg ds fs

theorem pyNum_toDec_wf (nm : PyNum) (h : pyNumWF nm = true) : 1 ≤ nm.toDec.e := by
  cases nm with
  | int n => simp [PyNum.toDec, floatOfInt]
  | float d => simpa [PyNum.toDec, pyNumWF] using h

theorem jwf_optIntJson (o : Option Int) : jwf (optIntJson o) = true := by
  cases o <;> rfl

theorem jwf_optStrJson (o : Option String) : jwf (optStrJson o) = true := by
  cases o <;> rfl

theorem jwf_optDecJson (o : Option Dec) (h : ∀ d, o = some d → 1 ≤ d.e) :
    jwf (optDecJson o) = true := by
  cases o with
  | none => rfl
  | some d => simpa [optDecJson, jwf] using h d rfl

theorem weatherCard_temperature_wf (loc cond : String) (temp hum wind : PyValue)
    (icon : Option String) (ht : pyValueWF temp = true) :
    1 ≤ (weatherCardOf loc temp cond hum wind icon).temperature.e := by
  show 1 ≤ (match parseNumberPy temp false with
    | some nm => nm.toDec
    | Option.none => (⟨200, 1⟩ : Dec)).e
  cases hp : parseNumberPy temp false with
  | none => simp
  | some nm =>
    simp only
    exact pyNum_toDec_wf nm (parseNumberPy_wf temp false ht nm hp)

theorem weatherCard_wind_wf (loc cond : String) (temp hum wind : PyValue)
    (icon : Option String) (hw : pyValueWF wind = true) :
    ∀ d, (weatherCardOf loc temp cond hum wind icon).wind_speed = some d → 1 ≤ d.e := by
  intro d hd
  show 1 ≤ d.e
  have : (parseNumberPy wind false).map PyNum.toDec = some d := hd
  cases hp : parseNumberPy wind false with
  | none => rw [hp] at this; cases this
  | some nm =>
    rw [hp] at this
    simp at this
    subst this
    exact pyNum_toDec_wf nm (parseNumberPy_wf wind false hw nm hp)

theorem weatherCard_modelDump_wf (loc cond : String) (temp hum wind : PyValue)
    (icon : Option String) (ht : pyValueWF temp = true) (hw : pyValueWF wind = true) :
    jwf (weatherCardOf loc temp cond hum wind icon).modelDump = true := by
  have h1 := weatherCard_temperature_wf loc cond temp hum wind icon ht
  have h2 := jwf_optDecJson _ (weatherCard_wind_wf loc cond temp hum wind icon hw)
  have h3 := jwf_optIntJson (weatherCardOf loc temp cond hum wind icon).humidity
  have h4 := jwf_optStrJson (weatherCardOf loc temp cond hum wind icon).icon
  simp [WeatherCardSchema.modelDump, jwf, owf, h1, h2, h3, h4]

/-! ## Claim theorems (continued) -/

/-- C4: the weather tool's numeric coercion extracts the leading decimal
from unit-suffixed strings — `"20°C"` → `20.0`, `"65%"` → `65`,
`"12 km/h"` → `12.0` — and on a string with no extractable number it
returns `None` (total, never an exception), in which case the required
`temperature` field falls back to the documented default `20.0`
(`Dec ⟨200, 1⟩`). -/
theorem numeric_coercion_units_and_default :
    parseNumberPy (.str "20°C") false = some (.float ⟨200, 1⟩) ∧
    parseNumberPy (.str "65%") true = some (.int 65) ∧
    parseNumberPy (.str "12 km/h") false = some (.float ⟨120, 1⟩) ∧
    (∀ (s : String) (isInt : Bool), findNumber s.toList = Option.none →
      parseNumberPy (.str s) isInt = Option.none) ∧
    (∀ (loc cond : String) (hum wind : PyValue) (icon : Option String) (s : String),
      findNumber s.toList = Option.none →
      (weatherCardOf loc (.str s) cond hum wind icon).temperature = ⟨200, 1⟩) := by
  refine ⟨by rfl, by rfl, by rfl, ?_, ?_⟩
  · intro s isInt h
    have h2 : findNumber s.data = Option.none := h
    simp [parseNumberPy, h2]
  · intro loc cond hum wind icon s h
    have h2 : findNumber s.data = Option.none := h
    show (match parseNumberPy (.str s) false with
      | some nm => nm.toDec
      | Option.none => (⟨200, 1⟩ : Dec)) = ⟨200, 1⟩
    simp [parseNumberPy, h2]

/-- Witness for C4: a string with no digits coerces to `None`, and as a
temperature input yields the default `20.0`. -/
theorem numeric_coercion_units_and_default_witness :
    parseNumberPy (.str "no digits here") false = Option.none ∧
    (weatherCardOf "Paris" (.str "warm") "Sunny" PyValue.none PyValue.none
      Option.none).temperature = ⟨200, 1⟩ :=
  ⟨numeric_coercion_units_and_default.2.2.2.1 "no digits here" false (by rfl),
   numeric_coercion_units_and_default.2.2.2.2 "Paris" "Sunny" PyValue.none PyValue.none
     Option.none "warm" (by rfl)⟩

/-- C10: in the weather tool only the required `temperature` field has a
numeric default: when the optional `humidity`/`wind_speed` inputs are
unparseable or absent they coerce to `None` and are carried as `null`,
while the card is still constructed — `temperature` is the parsed value
when available and `20.0` only when unparseable. -/
theorem weather_optional_fields_no_default (loc cond : String)
    (temp hum wind : PyValue) (icon : Option String)
    (hh : parseNumberPy hum true = Option.none)
    (hw : parseNumberPy wind false = Option.none) :
    (weatherCardOf loc temp cond hum wind icon).humidity = Option.none ∧
    (weatherCardOf loc temp cond hum wind icon).wind_speed = Option.none ∧
    (weatherCardOf loc temp cond hum wind icon).location = loc ∧
    (weatherCardOf loc temp cond hum wind icon).condition = cond ∧
    (∀ d, parseNumberPy temp false = some (.float d) →
      (weatherCardOf loc temp cond hum wind icon).temperature = d) ∧
    (parseNumberPy temp false = Option.none →
      (weatherCardOf loc temp cond hum wind icon).temperature = ⟨200, 1⟩) := by
  refine ⟨?_, ?_, rfl, rfl, ?_, ?_⟩
  · show (parseNumberPy hum true).map PyNum.toInt = Option.none
    rw [hh]
    rfl
  · show (parseNumberPy wind false).map PyNum.toDec = Option.none
    rw [hw]
    rfl
  · intro d hd
    show (match parseNumberPy temp false with
      | some nm => nm.toDec
      | Option.none => (⟨200, 1⟩ : Dec)) = d
    rw [hd]
    rfl
  · intro hn
    show (match parseNumberPy temp false with
      | some nm => nm.toDec
      | Option.none => (⟨200, 1⟩ : Dec)) = ⟨200, 1⟩
    rw [hn]

/-- Witness for C10: unparseable humidity and wind coerce to `None`; the
card is still built with the parsed temperature. -/
theorem weather_optional_fields_no_default_witness :
    (weatherCardOf "Oslo" (.str "-3.5°C") "Cloudy" (.str "humid") PyValue.none
      Option.none).humidity = Option.none ∧
    (weatherCardOf "Oslo" (.str "-3.5°C") "Cloudy" (.str "humid") PyValue.none
      Option.none).wind_speed = Option.none ∧
    (weatherCardOf "Oslo" (.str "-3.5°C") "Cloudy" (.str "humid") PyValue.none
      Option.none).temperature = ⟨-35, 1⟩ :=
  have h := weather_optional_fields_no_default "Oslo" "Cloudy" (.str "-3.5°C")
    (.str "humid") PyValue.none Option.none (by rfl) (by rfl)
  ⟨h.1, h.2.1, h.2.2.2.2.1 ⟨-35, 1⟩ (by rfl)⟩

/-! ### The AgentExecutor iteration cap -/

theorem runExecutorLoop_calls_le (plan : Nat → AgentTurn) :
    ∀ (remaining calls : Nat), (runExecutorLoop plan remaining calls).2 ≤ calls + remaining := by
  intro remaining
  induction remaining with
  | zero => intro calls; simp [runExecutorLoop]
  | succ r ih =>
    intro calls
    show (match plan calls with
      | .finish out => (out, calls + 1)
      | .act _ _ => runExecutorLoop plan r (calls + 1)).2 ≤ calls + (r + 1)
    cases plan calls with
    | finish out => simp
    | act tool input =>
      have := ih (calls + 1)
      simpa [Nat.add_comm, Nat.add_left_comm] using this

theorem runExecutorLoop_all_act (plan : Nat → AgentTurn)
    (hall : ∀ i, ∃ tool input, plan i = .act tool input) :
    ∀ (remaining calls : Nat),
      runExecutorLoop plan remaining calls = (stoppedMessage, calls + remaining) := by
  intro remaining
  induction remaining with
  | zero => intro calls; simp [runExecutorLoop]
  | succ r ih =>
    intro calls
    obtain ⟨tool, input, hact⟩ := hall calls
    show (match plan calls with
      | .finish out => (out, calls + 1)
      | .act _ _ => runExecutorLoop plan r (calls + 1)) = (stoppedMessage, calls + (r + 1))
    rw [hact]
    rw [ih (calls + 1), show calls + 1 + r = calls + (r + 1) from by omega]

/-- C2: the dynamic-schema Selection Stage terminates within the
`max_iterations=3` cap for every model behaviour — at most 3 model
invocations — and when the model requests a tool on every turn the
executor stops with its force-stop message, which `select_component`
(unable to parse it as JSON) converts into the dynamic agent's fallback
info card carrying the answer text, not an error. -/
theorem selection_cap_and_fallback (plan : Nat → AgentTurn) (answer : String) :
    (runAgentExecutor plan dynamicAgentMaxIterations).2 ≤ 3 ∧
    ((∀ i, ∃ tool input, plan i = .act tool input) →
      runAgentExecutor plan dynamicAgentMaxIterations = (stoppedMessage, 3) ∧
      dynamicSelectComponent (.ok (runAgentExecutor plan dynamicAgentMaxIterations).1)
          answer =
        dynamicFallbackInfoCard answer stoppedMessage ∧
      (dynamicSelectComponent (.ok (runAgentExecutor plan dynamicAgentMaxIterations).1)
          answer).1 =
        .obj (.cons "type" (.str "info_card")
          (.cons "title" (.str "Response")
            (.cons "content" (.str answer)
              (.cons "variant" (.str "default") .nil))))) := by
  constructor
  · simpa [runAgentExecutor, dynamicAgentMaxIterations] using
      runExecutorLoop_calls_le plan 3 0
  · intro hall
    have hrun : runAgentExecutor plan dynamicAgentMaxIterations = (stoppedMessage, 3) := by
      simpa [runAgentExecutor, dynamicAgentMaxIterations] using
        runExecutorLoop_all_act plan hall 3 0
    refine ⟨hrun, ?_, ?_⟩
    · rw [hrun]
      rfl
    · rw [hrun]
      rfl

/-- Witness for C2: a model that requests another tool call on every turn
is stopped after exactly 3 invocations and yields the info-card fallback. -/
theorem selection_cap_and_fallback_witness :
    (runAgentExecutor (fun _ => .act "create_info_card" "x")
      dynamicAgentMaxIterations).2 ≤ 3 ∧
    dynamicSelectComponent
        (.ok (runAgentExecutor (fun _ => .act "create_info_card" "x")
          dynamicAgentMaxIterations).1) "the answer" =
      dynamicFallbackInfoCard "the answer" stoppedMessage :=
  ⟨(selection_cap_and_fallback (fun _ => .act "create_info_card" "x") "the answer").1,
   ((selection_cap_and_fallback (fun _ => .act "create_info_card" "x") "the answer").2
     (fun _ => ⟨"create_info_card", "x", rfl⟩)).2.1⟩

/-- C3 (code bug): the orchestrator's error paths do not degrade to an
info card — they raise.  `_ui_node` calls the nonexistent
`UIAgent._fallback_info_card`, so when the Answer Stage errored, or when
`select_component` raises, an `AttributeError` escapes `process_query`
instead of a populated `AgentResponse`; only the error-free path returns
one. -/
theorem orchestrator_error_paths_raise :
    (∀ (e : String) (sel : Except String (Json × String)) (q c : String),
      processQuery (.error e) sel q c =
        .error (.attributeError "UIAgent" "_fallback_info_card")) ∧
    (∀ (a e q c : String),
      processQuery (.ok a) (.error e) q c =
        .error (.attributeError "UIAgent" "_fallback_info_card")) ∧
    (∀ (a : String) (comp : Json) (r q c : String),
      processQuery (.ok a) (.ok (comp, r)) q c =
        .ok ⟨a, some comp, r⟩) :=
  ⟨fun _ _ _ _ => rfl, fun _ _ _ _ => rfl, fun _ _ _ _ _ => rfl⟩

/-! ### Fallback scanning -/

theorem firstParsedToolResult_none (msgs : List Msg)
    (h : ∀ c, Msg.tool c ∈ msgs → Json.parse c = Option.none) :
    firstParsedToolResult msgs = Option.none := by
  induction msgs with
  | nil => rfl
  | cons m rest ih =>
    cases m with
    | tool content =>
      have hc := h content (List.mem_cons_self _ _)
      show (match Json.parse content with
        | some j => some j
        | Option.none => firstParsedToolResult rest) = Option.none
      rw [hc]
      exact ih (fun c hcm => h c (List.mem_cons_of_mem _ hcm))
    | human content => exact ih (fun c hcm => h c (List.mem_cons_of_mem _ hcm))
    | ai content toolCalls => exact ih (fun c hcm => h c (List.mem_cons_of_mem _ hcm))

theorem infoCard_modelDump_wf (c : InfoCardSchema) : jwf c.modelDump = true := by
  have h4 := jwf_optStrJson c.icon
  simp [InfoCardSchema.modelDump, jwf, owf, h4]

/-- C6 counterexample: with no parseable tool result, the dynamic-schema
agent's fallback info card has title `"Response"`, not `"Information"`. -/
theorem selection_no_parse_title_mismatch :
    dynamicSelectComponent (.ok "not json") "the answer" =
      (.obj (.cons "type" (.str "info_card")
        (.cons "title" (.str "Response")
          (.cons "content" (.str "the answer")
            (.cons "variant" (.str "default") .nil)))), "not json") ∧
    ("Response" : String) ≠ "Information" :=
  ⟨rfl, by decide⟩

/-- C6 (amended): whenever the Selection Stage finishes without any
parseable tool result it produces an `info_card` whose content is exactly
the original answer text with variant `"default"`, together with a
reasoning string; the title is `"Information"` in the graph-based
`UIAgent` and `"Response"` in the dynamic-schema agent. -/
theorem selection_no_parse_info_fallback :
    (∀ (reasonContent answer : String) (msgs : List Msg),
      (∀ c, Msg.tool c ∈ msgs → Json.parse c = Option.none) →
      finalizeResponse reasonContent msgs answer =
        some (.obj (.cons "type" (.str "info_card")
          (.cons "title" (.str "Information")
            (.cons "content" (.str answer)
              (.cons "icon" .null
                (.cons "variant" (.str "default") .nil))))), pyStrip reasonContent)) ∧
    (∀ (answer out : String), Json.parse out = Option.none →
      dynamicSelectComponent (.ok out) answer =
        (.obj (.cons "type" (.str "info_card")
          (.cons "title" (.str "Response")
            (.cons "content" (.str answer)
              (.cons "variant" (.str "default") .nil)))), out)) := by
  constructor
  · intro reasonContent answer msgs h
    have hscan : firstParsedToolResult msgs.reverse = Option.none :=
      firstParsedToolResult_none _ (fun c hc => h c (List.mem_reverse.mp hc))
    unfold finalizeResponse
    rw [hscan]
    show (match infoToolRun "Information" answer Option.none "default" with
      | some fb =>
        match Json.parse fb with
        | some comp => some (comp, pyStrip reasonContent)
        | Option.none => Option.none
      | Option.none => Option.none) =
      some (.obj (.cons "type" (.str "info_card")
        (.cons "title" (.str "Information")
          (.cons "content" (.str answer)
            (.cons "icon" .null
              (.cons "variant" (.str "default") .nil))))), pyStrip reasonContent)
    have hfb : infoToolRun "Information" answer Option.none "default" =
        some (Json.dumps (InfoCardSchema.modelDump
          ⟨"Information", answer, Option.none, "default"⟩)) := rfl
    rw [hfb]
    show (match Json.parse (Json.dumps (InfoCardSchema.modelDump
        ⟨"Information", answer, Option.none, "default"⟩)) with
      | some comp => some (comp, pyStrip reasonContent)
      | Option.none => Option.none) = _
    rw [json_parse_dumps _ (infoCard_modelDump_wf _)]
    rfl
  · intro answer out h
    show (match Json.parse out with
      | some (Json.obj fields) =>
        (match JObj.find fields "component" with
         | some c => c
         | Option.none => Json.obj JObj.nil,
         match JObj.find fields "reasoning" with
         | some (Json.str s) => s
         | some v => jsonAsPyText v
         | Option.none => "Component selected by agent")
      | some _ =>
        dynamicFallbackInfoCard answer "Error in component selection: AttributeError"
      | Option.none => dynamicFallbackInfoCard answer out) =
      (.obj (.cons "type" (.str "info_card")
        (.cons "title" (.str "Response")
          (.cons "content" (.str answer)
            (.cons "variant" (.str "default") .nil)))), out)
    rw [h]
    rfl

/-- Witness for C6: a conversation whose only tool message is unparseable
falls back to the `"Information"` card, and the dynamic agent with a
non-JSON output falls back to the `"Response"` card. -/
theorem selection_no_parse_info_fallback_witness :
    finalizeResponse "  because  " [.human "q", .ai "" [], .tool "junk"] "ans" =
      some (.obj (.cons "type" (.str "info_card")
        (.cons "title" (.str "Information")
          (.cons "content" (.str "ans")
            (.cons "icon" .null
              (.cons "variant" (.str "default") .nil))))), "because") ∧
    dynamicSelectComponent (.ok "plain text") "ans" =
      (.obj (.cons "type" (.str "info_card")
        (.cons "title" (.str "Response")
          (.cons "content" (.str "ans")
            (.cons "variant" (.str "default") .nil)))), "plain text") :=
  ⟨selection_no_parse_info_fallback.1 "  because  " "ans" [.human "q", .ai "" [], .tool "junk"]
     (by
       intro c hc
       simp at hc
       subst hc
       rfl),
   selection_no_parse_info_fallback.2 "ans" "plain text" (by rfl)⟩

/-! ### Tool-loop shape -/

theorem answerGraphLoop_succ (model : Nat → String × List String) (f calls batches : Nat) :
    answerGraphLoop model (f + 1) calls batches =
      if (model calls).2.isEmpty then (some (model calls).1, calls + 1, batches)
      else answerGraphLoop model f (calls + 1) (batches + 1) := by
  rcases hmodel : model calls with ⟨content, tcs⟩
  simp only [answerGraphLoop, hmodel]
  cases tcs with
  | nil => rfl
  | cons a b => rfl

theorem answerGraphLoop_calls (model : Nat → String × List String) :
    ∀ (fuel calls batches : Nat) (out : String) (c b : Nat),
      answerGraphLoop model fuel calls batches = (some out, c, b) →
      c + batches = b + calls + 1 := by
  intro fuel
  induction fuel with
  | zero =>
    intro calls batches out c b h
    exact absurd h (by simp [answerGraphLoop])
  | succ f ih =>
    intro calls batches out c b h
    rw [answerGraphLoop_succ] at h
    by_cases htc : (model calls).2.isEmpty
    · rw [if_pos htc] at h
      injection h with h1 h2
      injection h2 with h2 h3
      omega
    · rw [if_neg htc] at h
      have := ih (calls + 1) (batches + 1) out c b h
      omega

/-- C7 counterexample: in the Selection Stage graph the edge out of the
tools node goes to finalize, not back to the model; concretely, a
selection run in which the model requests one tool call executes the tool
and terminates having invoked the model exactly once — the model is not
re-invoked after tool execution. -/
theorem ui_stage_tool_without_reinvoke :
    uiToolsEdge = UINode.finalize ∧
    UINode.finalize ≠ UINode.agent ∧
    (uiGraphRun ("", [.info "T" "C" Option.none "default"]) "r" "q" "a").2 = (1, 1) :=
  ⟨rfl, by decide, rfl⟩

/-- C7 (amended): the two stages differ.  In the Answer Stage the graph
wires tools back to the model (`tools → agent`), and every terminating run
re-invoked the model after each tool batch (model invocations = tool
batches + 1); in the Selection Stage the graph wires `tools → finalize`,
and every run invokes the selection model exactly once, whether or not
tools were executed. -/
theorem tool_loop_reinvoke_asymmetry :
    answerToolsEdge = AnswerNode.agent ∧
    uiToolsEdge = UINode.finalize ∧
    (∀ (model : Nat → String × List String) (fuel : Nat) (out : String) (c b : Nat),
      answerGraphRun model fuel = (some out, c, b) → c = b + 1) ∧
    (∀ (reply : String × List UIToolCall) (reasonContent q a : String),
      (uiGraphRun reply reasonContent q a).2.1 = 1) := by
  refine ⟨rfl, rfl, ?_, ?_⟩
  · intro model fuel out c b h
    have := answerGraphLoop_calls model fuel 0 0 out c b h
    omega
  · intro reply reasonContent q a
    unfold uiGraphRun
    cases hsc : uiShouldContinue (!reply.2.isEmpty) <;> rfl

/-- Witness for C7 (amended): a model that requests one weather lookup then
answers is invoked twice for one tool batch (2 = 1 + 1). -/
theorem tool_loop_reinvoke_asymmetry_witness :
    answerGraphRun (fun i => if i = 0 then ("", ["Tokyo"]) else ("72 and sunny", []))
        5 = (some "72 and sunny", 2, 1) ∧
    (2 : Nat) = 1 + 1 :=
  ⟨rfl,
   tool_loop_reinvoke_asymmetry.2.2.1
     (fun i => if i = 0 then ("", ["Tokyo"]) else ("72 and sunny", [])) 5
     "72 and sunny" 2 1 rfl⟩

/-! ### Well-formedness of the chart, table and info dumps -/

theorem awf_ofList (l : List Json) (h : ∀ j ∈ l, jwf j = true) :
    awf (JArr.ofList l) = true := by
  induction l with
  | nil => rfl
  | cons j t ih =>
    show (jwf j && awf (JArr.ofList t)) = true
    rw [h j (List.mem_cons_self _ _), ih (fun x hx => h x (List.mem_cons_of_mem _ hx))]
    rfl

theorem chartPoint_modelDump_wf (p : ChartDataPoint) (h : pyNumWF p.value = true) :
    jwf p.modelDump = true := by
  have h2 := jwf_optStrJson p.color
  cases hv : p.value with
  | int n => simp [ChartDataPoint.modelDump, jwf, owf, PyNum.toJson, hv, h2]
  | float d =>
    rw [hv] at h
    simp only [pyNumWF] at h
    simp [ChartDataPoint.modelDump, jwf, owf, PyNum.toJson, hv, h2, h]

theorem chartCard_modelDump_wf (c : ChartCardSchema)
    (h : ∀ p ∈ c.data, pyNumWF p.value = true) : jwf c.modelDump = true := by
  have harr : awf (JArr.ofList (c.data.map ChartDataPoint.modelDump)) = true := by
    apply awf_ofList
    intro j hj
    rw [List.mem_map] at hj
    obtain ⟨p, hp, rfl⟩ := hj
    exact chartPoint_modelDump_wf p (h p hp)
  simp [ChartCardSchema.modelDump, jwf, owf, harr, jwf_optStrJson]

theorem tableColumn_modelDump_wf (c : TableColumn) : jwf c.modelDump = true := by
  simp [TableColumn.modelDump, jwf, owf]

theorem tableRow_modelDump_wf (r : TableRow) (h : owf r.data = true) :
    jwf r.modelDump = true := by
  simp [TableRow.modelDump, jwf, owf, h]

theorem dataTable_modelDump_wf (t : DataTableSchema)
    (h : ∀ r ∈ t.rows, owf r.data = true) : jwf t.modelDump = true := by
  have hcols : awf (JArr.ofList (t.columns.map TableColumn.modelDump)) = true := by
    apply awf_ofList
    intro j hj
    rw [List.mem_map] at hj
    obtain ⟨c, -, rfl⟩ := hj
    exact tableColumn_modelDump_wf c
  have hrows : awf (JArr.ofList (t.rows.map TableRow.modelDump)) = true := by
    apply awf_ofList
    intro j hj
    rw [List.mem_map] at hj
    obtain ⟨r, hr, rfl⟩ := hj
    exact tableRow_modelDump_wf r (h r hr)
  simp [DataTableSchema.modelDump, jwf, owf, hcols, hrows]

/-- C8: for each of the four component tools, constructing the component
from a valid argument set, serializing it with `json.dumps` and parsing
the result back with `json.loads` recovers exactly the constructed
component's `model_dump()` mapping, field for field. -/
theorem tool_serialize_parse_roundtrip :
    (∀ (loc cond : String) (temp hum wind : PyValue) (icon : Option String),
      pyValueWF temp = true → pyValueWF wind = true →
      Json.parse (weatherToolRun loc temp cond hum wind icon) =
        some (weatherCardOf loc temp cond hum wind icon).modelDump) ∧
    (∀ (title ct : String) (ctv : ChartType) (data : List ChartDataPoint)
      (xA yA : Option String), chartTypeOf ct = some ctv →
      (∀ p ∈ data, pyNumWF p.value = true) →
      chartToolRun title ct data xA yA =
        some (Json.dumps (ChartCardSchema.modelDump ⟨title, ctv, data, xA, yA⟩)) ∧
      Json.parse (Json.dumps (ChartCardSchema.modelDump ⟨title, ctv, data, xA, yA⟩)) =
        some (ChartCardSchema.modelDump ⟨title, ctv, data, xA, yA⟩)) ∧
    (∀ (title : String) (cols : List (String × String × Option Bool)) (rows : List JObj)
      (searchable : Bool), (∀ r ∈ rows, owf r = true) →
      Json.parse (tableToolRun title cols rows searchable) =
        some (DataTableSchema.modelDump
          ⟨title, cols.map (fun c => ⟨c.1, c.2.1, (c.2.2).getD true⟩),
            rows.map TableRow.mk, searchable⟩)) ∧
    (∀ (title content : String) (icon : Option String) (variant : String),
      variantOk variant = true →
      infoToolRun title content icon variant =
        some (Json.dumps (InfoCardSchema.modelDump ⟨title, content, icon, variant⟩)) ∧
      Json.parse (Json.dumps (InfoCardSchema.modelDump ⟨title, content, icon, variant⟩)) =
        some (InfoCardSchema.modelDump ⟨title, content, icon, variant⟩)) := by
  refine ⟨?_, ?_, ?_, ?_⟩
  · intro loc cond temp hum wind icon ht hw
    exact json_parse_dumps _ (weatherCard_modelDump_wf loc cond temp hum wind icon ht hw)
  · intro title ct ctv data xA yA hct hdata
    constructor
    · unfold chartToolRun
      rw [hct]
      rfl
    · exact json_parse_dumps _ (chartCard_modelDump_wf ⟨title, ctv, data, xA, yA⟩ hdata)
  · intro title cols rows searchable hrows
    apply json_parse_dumps
    apply dataTable_modelDump_wf
    intro r hr
    rw [List.mem_map] at hr
    obtain ⟨o, ho, rfl⟩ := hr
    exact hrows o ho
  · intro title content icon variant hv
    constructor
    · unfold infoToolRun
      rw [if_pos hv]
    · exact json_parse_dumps _ (infoCard_modelDump_wf ⟨title, content, icon, variant⟩)

/-- Witness for C8: concrete round trips through all four tools. -/
theorem tool_serialize_parse_roundtrip_witness :
    Json.parse (weatherToolRun "Tokyo, \"JP\"" (.str "21.5°C") "Sunny" (.str "65%")
        (.str "12 km/h") (some "sunny")) =
      some (weatherCardOf "Tokyo, \"JP\"" (.str "21.5°C") "Sunny" (.str "65%")
        (.str "12 km/h") (some "sunny")).modelDump ∧
    Json.parse (Json.dumps (ChartCardSchema.modelDump
        ⟨"Sales", .bar, [⟨"Jan", .int 5, Option.none⟩, ⟨"Feb", .float ⟨25, 1⟩, some "red"⟩],
          some "month", Option.none⟩)) =
      some (ChartCardSchema.modelDump
        ⟨"Sales", .bar, [⟨"Jan", .int 5, Option.none⟩, ⟨"Feb", .float ⟨25, 1⟩, some "red"⟩],
          some "month", Option.none⟩) ∧
    Json.parse (tableToolRun "Users" [("name", "Name", Option.none), ("age", "Age", some false)]
        [.cons "name" (.str "Ada") (.cons "age" (.int 36) .nil)] true) =
      some (DataTableSchema.modelDump
        ⟨"Users", [⟨"name", "Name", true⟩, ⟨"age", "Age", false⟩],
          [⟨.cons "name" (.str "Ada") (.cons "age" (.int 36) .nil)⟩], true⟩) ∧
    infoToolRun "Information" "All good" Option.none "default" =
      some (Json.dumps (InfoCardSchema.modelDump
        ⟨"Information", "All good", Option.none, "default"⟩)) :=
  ⟨tool_serialize_parse_roundtrip.1 "Tokyo, \"JP\"" "Sunny" (.str "21.5°C") (.str "65%")
     (.str "12 km/h") (some "sunny") (by rfl) (by rfl),
   (tool_serialize_parse_roundtrip.2.1 "Sales" "bar" .bar
     [⟨"Jan", .int 5, Option.none⟩, ⟨"Feb", .float ⟨25, 1⟩, some "red"⟩]
     (some "month") Option.none (by rfl) (by
       intro p hp
       simp at hp
       rcases hp with rfl | rfl <;> rfl)).2,
   tool_serialize_parse_roundtrip.2.2.1 "Users"
     [("name", "Name", Option.none), ("age", "Age", some false)]
     [.cons "name" (.str "Ada") (.cons "age" (.int 36) .nil)] true (by
       intro r hr
       simp at hr
       subst hr
       rfl),
   (tool_serialize_parse_roundtrip.2.2.2 "Information" "All good" Option.none "default"
     (by rfl)).1⟩

/-- C9: the dynamic tool layer's `create` validates required fields — a
call whose argument mapping omits a required field returns the
`Missing required parameter` error JSON naming the first missing field,
which is itself a well-formed JSON object. -/
theorem missing_required_param_error (required : List String) (name : String)
    (kwargs : List (String × Json)) (p : String)
    (hp : required.find? (fun q => !(kwargs.any (fun kv => kv.1 = q))) = some p) :
    toolFunction required name kwargs =
      Json.dumps (.obj (.cons "error"
        (.str ("Missing required parameter: " ++ p)) .nil)) ∧
    p ∈ required ∧
    (∀ v : Json, (p, v) ∉ kwargs) ∧
    Json.parse (toolFunction required name kwargs) =
      some (.obj (.cons "error" (.str ("Missing required parameter: " ++ p)) .nil)) := by
  have h1 : toolFunction required name kwargs =
      Json.dumps (.obj (.cons "error"
        (.str ("Missing required parameter: " ++ p)) .nil)) := by
    unfold toolFunction
    rw [hp]
  have hmem : p ∈ required := List.mem_of_find?_eq_some hp
  have hpred := List.find?_some hp
  have hnot : ∀ v : Json, (p, v) ∉ kwargs := by
    intro v hv
    simp only [Bool.not_eq_true'] at hpred
    rw [List.any_eq_false] at hpred
    exact absurd (by simp : ((p, v).1 = p)) (by simpa using hpred (p, v) hv)
  refine ⟨h1, hmem, hnot, ?_⟩
  rw [h1]
  exact json_parse_dumps _ rfl

/-- Witness for C9: omitting `content` from an info-card call produces the
error JSON naming `content`. -/
theorem missing_required_param_error_witness :
    toolFunction ["title", "content"] "Info Card" [("title", .str "T")] =
      Json.dumps (.obj (.cons "error"
        (.str ("Missing required parameter: " ++ "content")) .nil)) ∧
    "content" ∈ ["title", "content"] :=
  have h := missing_required_param_error ["title", "content"] "Info Card"
    [("title", .str "T")] "content" (by rfl)
  ⟨h.1, h.2.1⟩

end NextGenUI
